import Mathlib

/-
Verification of the msgpackr-python decoder (src/msgpackr) against its
specification.  The decoder (Unpacker in unpack.py, extensions in
extension.py) is shallowly embedded below: bytes-like inputs are lists of
byte values, Python str values are lists of Unicode code points, the
mutable Unpacker instance is an explicit state record threaded through a
state-plus-exception monad, and the unbounded Python recursion is indexed
by an explicit fuel counter (every theorem either quantifies over the fuel
or instantiates it large enough for the concrete input).
-/

namespace Msgpackr

/-- Error kinds: each constructor models one exception site of the source. -/
inductive Err where
  | struct            -- struct.error: unpack_from reaching past the buffer end
  | shortBuffer       -- ValueError from Unpacker.check_data_length
  | invalidCode       -- ValueError: lead byte matches no table in Unpacker.step
  | restricted        -- ValueError: lead byte outside the restrict set
  | badUtf8           -- UnicodeDecodeError from bytes.decode()
  | indexError        -- IndexError: direct data[i] indexing past the end
  | unknownExt        -- ValueError: unknown extension type
  | noBundledStrings  -- ValueError "No bundled strings provided"
  | notPopulated      -- ValueError "Bundled strings not populated"
  | bundledExhausted  -- ValueError "BundledStrings exhausted"
  | stringOOB         -- ValueError "String out of bounds"
  | badTimestampLen   -- ValueError "Invalid timestamp length"
  | dtRange           -- OverflowError from datetime.fromtimestamp out of range
  | usecRange         -- ValueError from datetime.replace(microsecond=...)
  | badRecordId       -- ValueError "Invalid record identifier"
  | badRecordIdLen    -- ValueError "Invalid record identifier length"
  | recordsDisabled   -- ValueError "Records extension is disabled"
  | badRecordKeys     -- ValueError "Invalid record keys"
  | badErrorExt       -- ValueError "Invalid error extension"
  | trailingData      -- ValueError "Remaining data after unpacking"
  | duplicateExt      -- ValueError "Extension type _ is already registered"
  | attrError         -- AttributeError: attribute read before assignment / on None
  | assertFail        -- a failed assert statement
  | typeError         -- TypeError (unhashable dict key, non-str consume length)
  | negativePos       -- a negative buffer offset (Python counts from the buffer
                      -- end there; no claim reaches this, kept as an error)
  | fuel              -- artificial: the fuel bound of the embedding ran out

/-- A Python str value, as its list of Unicode code points. -/
abbrev PyStr := List Nat

/-- int.from_bytes(bs, "big"). -/
def bytesToNat (bs : List Nat) : Nat := bs.foldl (fun a b => a * 256 + b) 0

/-- Python slice bs[i:j] on a bytes-like value (clamping like Python slices). -/
def pySlice (bs : List Nat) (i j : Nat) : List Nat := (bs.drop i).take (j - i)

/-- Is b a UTF-8 continuation byte (0x80..0xBF)? -/
def utf8Cont (b : Nat) : Bool := 0x80 ≤ b && b < 0xC0

/-- Strict UTF-8 decoding of bytes into code points.  Models Python
bytes.decode(), which rejects ill-formed input: stray continuation bytes,
overlong encodings, surrogates, code points above 0x10FFFF. -/
def utf8Decode : List Nat → Except Err (List Nat)
  | [] => .ok []
  | b :: rest =>
    if b < 0x80 then
      match utf8Decode rest with
      | .ok cs => .ok (b :: cs)
      | .error e => .error e
    else if b < 0xC2 then .error .badUtf8
    else if b < 0xE0 then
      match rest with
      | c1 :: rest1 =>
        if utf8Cont c1 then
          match utf8Decode rest1 with
          | .ok cs => .ok (((b - 0xC0) * 0x40 + (c1 - 0x80)) :: cs)
          | .error e => .error e
        else .error .badUtf8
      | [] => .error .badUtf8
    else if b < 0xF0 then
      match rest with
      | c1 :: c2 :: rest1 =>
        if utf8Cont c1 && utf8Cont c2 then
          let cp := (b - 0xE0) * 0x1000 + (c1 - 0x80) * 0x40 + (c2 - 0x80)
          if cp < 0x800 || (0xD800 ≤ cp && cp < 0xE000) then .error .badUtf8
          else
            match utf8Decode rest1 with
            | .ok cs => .ok (cp :: cs)
            | .error e => .error e
        else .error .badUtf8
      | _ => .error .badUtf8
    else if b < 0xF5 then
      match rest with
      | c1 :: c2 :: c3 :: rest1 =>
        if utf8Cont c1 && utf8Cont c2 && utf8Cont c3 then
          let cp := (b - 0xF0) * 0x40000 + (c1 - 0x80) * 0x1000 +
            (c2 - 0x80) * 0x40 + (c3 - 0x80)
          if cp < 0x10000 || 0x110000 ≤ cp then .error .badUtf8
          else
            match utf8Decode rest1 with
            | .ok cs => .ok (cp :: cs)
            | .error e => .error e
        else .error .badUtf8
      | _ => .error .badUtf8
    else .error .badUtf8

/-- struct.unpack_from of an n-byte big-endian unsigned field at pos
(UINT8_STRUCT .. UINT64_STRUCT); raises struct.error past the buffer end. -/
def readUIntBE (n : Nat) (data : List Nat) (pos : Nat) : Except Err Nat :=
  if pos + n ≤ data.length then .ok (bytesToNat (pySlice data pos (pos + n)))
  else .error .struct

/-- struct.unpack_from of an n-byte big-endian signed field at pos
(INT8_STRUCT .. INT64_STRUCT). -/
def readIntBE (n : Nat) (data : List Nat) (pos : Nat) : Except Err Int :=
  match readUIntBE n data pos with
  | .ok u => .ok (if u < 2 ^ (8 * n - 1) then (u : Int) else (u : Int) - 2 ^ (8 * n))
  | .error e => .error e

/-- BundledStrings (extension.py).  The begin and end attributes are assigned
only by populate, so they are modelled as one optional pair: none means they
were never assigned on this object (reading them is then an AttributeError). -/
structure BundledStrings where
  string_offset : Option Int
  strings : PyStr × PyStr
  positions : Nat × Nat
  bounds : Option (Nat × Nat)

/-- BundledStrings.__init__(offset). -/
def BundledStrings.init (offset : Option Int) : BundledStrings :=
  { string_offset := offset, strings := ([], []), positions := (0, 0), bounds := none }

/-- BundledStrings.populate(strings, begin, end). -/
def BundledStrings.populate (b : BundledStrings) (strings : PyStr × PyStr)
    (beg en : Nat) : BundledStrings :=
  { b with strings := strings, bounds := some (beg, en), string_offset := none }

/-- BundledStrings.consume_string(length, peek): negative length slices the left
string, nonnegative the right; the slice is string[start:start+abs(length)] and
the cursor advances unless peek.  Returns the slice and the updated object. -/
def BundledStrings.consume_string (b : BundledStrings) (length : Int) (peek : Bool) :
    Except Err (PyStr × BundledStrings) :=
  match b.string_offset with
  | some _ => .error .notPopulated
  | none =>
    let sign : Bool := decide (0 ≤ length)
    let string := if sign then b.strings.2 else b.strings.1
    let start := if sign then b.positions.2 else b.positions.1
    let en := start + length.natAbs
    if string.length = start then .error .bundledExhausted
    else if string.length < en then .error .stringOOB
    else
      .ok ((string.drop start).take (en - start),
        if peek then b
        else if sign then { b with positions := (b.positions.1, en) }
        else { b with positions := (en, b.positions.2) })

/-- BundledStrings.copy(): a fresh object built by __init__(string_offset) with
strings and positions carried over.  The begin and end attributes are NOT
assigned on the copy (the source copies only string_offset, strings and
positions). -/
def BundledStrings.copy (b : BundledStrings) : BundledStrings :=
  { BundledStrings.init b.string_offset with strings := b.strings, positions := b.positions }

/-- The registered extension classes (the handlers that exist in extension.py). -/
inductive Ext where
  | timestamp
  | undefined
  | bigint
  | bundledStrings
  | error
  | record
  | set

/-- The EXT_TYPE class attribute of each extension. -/
def Ext.EXT_TYPE : Ext → Int
  | .timestamp => -1
  | .undefined => 0
  | .bigint => 66
  | .bundledStrings => 98
  | .error => 101
  | .record => 114
  | .set => 115

/-- issubclass(extension, MsgpackExtensionWithPost). -/
def Ext.isWithPost : Ext → Bool
  | .bundledStrings => true
  | .error => true
  | .record => true
  | .set => true
  | _ => false

/-- Python dict lookup d[k] / membership on an insertion-ordered assoc list. -/
def dictGet {κ ν : Type} [DecidableEq κ] : List (κ × ν) → κ → Option ν
  | [], _ => none
  | (k0, v0) :: rest, k => if k0 = k then some v0 else dictGet rest k

/-- Python dict assignment d[k] = v on an insertion-ordered assoc list: replace
in place when the key is present (keeping the original key object), else append. -/
def dictSet {κ ν : Type} [DecidableEq κ] : List (κ × ν) → κ → ν → List (κ × ν)
  | [], k, v => [(k, v)]
  | (k0, v0) :: rest, k, v =>
    if k0 = k then (k0, v) :: rest else (k0, v0) :: dictSet rest k v

/-- The dynamically-typed values the decoder produces.  float32/float64 keep the
raw big-endian payload bytes (no claim interprets IEEE semantics); datetime is
(seconds, microseconds) as produced by the modelled datetime functions; skip is
the SKIP sentinel; bsObj is a BundledStrings object flowing between an
extension unpack and its post_unpack; errObj models an extension.Error object. -/
inductive Value where
  | nil
  | bool (b : Bool)
  | int (n : Int)
  | float32 (bits : List Nat)
  | float64 (bits : List Nat)
  | str (s : PyStr)
  | bin (bs : List Nat)
  | arr (vs : List Value)
  | map (kvs : List (Value × Value))
  | datetime (sec : Int) (usec : Nat)
  | undefined
  | skip
  | bsObj (b : BundledStrings)
  | errObj (t : Value) (msg : Value) (cause : Value)

/-- Is this Python value hashable (usable as a dict key)?  Lists and dicts are
not; everything else the decoder produces is. -/
def isHashable : Value → Bool
  | .arr _ => false
  | .map _ => false
  | _ => true

/-- Python == between hashable decoded values, as dict key comparison uses it:
True == 1 and False == 0; bytes-like values compare by content; extension
objects (bsObj, errObj) compare by identity and two separately decoded objects
are never identical, so they compare unequal; the UNDEFINED sentinel is one
shared object, so it equals itself.  Cross-type int/float equality is not
modelled (no claim involves float keys). -/
def pyKeyEq : Value → Value → Bool
  | .nil, .nil => true
  | .bool a, .bool b => a == b
  | .bool a, .int n => (if a then (1 : Int) else 0) == n
  | .int n, .bool b => n == (if b then (1 : Int) else 0)
  | .int m, .int n => m == n
  | .str a, .str b => a == b
  | .bin a, .bin b => a == b
  | .float32 a, .float32 b => a == b
  | .float64 a, .float64 b => a == b
  | .datetime a b, .datetime c d => a == c && b == d
  | .undefined, .undefined => true
  | _, _ => false

/-- Core of pyDictSet: insert-or-replace under pyKeyEq. -/
def pyDictSetCore : List (Value × Value) → Value → Value → List (Value × Value)
  | [], k, v => [(k, v)]
  | (k0, v0) :: rest, k, v =>
    if pyKeyEq k0 k then (k0, v) :: rest else (k0, v0) :: pyDictSetCore rest k v

/-- Python dict assignment d[key] = v with a decoded Value as key: TypeError on
an unhashable key, otherwise insert-or-replace preserving insertion order. -/
def pyDictSet (kvs : List (Value × Value)) (k v : Value) :
    Except Err (List (Value × Value)) :=
  if isHashable k then .ok (pyDictSetCore kvs k v) else .error .typeError

/-- The mutable state of an Unpacker instance (unpack.py): the extension
registry, the enable_bundled_strings flag, the records cache (None when records
are disabled) and the current bundled-strings pool. -/
structure UState where
  extensions : List (Int × Ext)
  enable_bundled_strings : Bool
  records : Option (List (Nat × List PyStr))
  bundle : Option BundledStrings

/-- State-plus-exception monad over the Unpacker state: a raised exception
propagates while keeping the mutations made so far, as in Python. -/
abbrev M (α : Type) := UState → UState × Except Err α

def mpure {α : Type} (a : α) : M α := fun s => (s, .ok a)

def mthrow {α : Type} (e : Err) : M α := fun s => (s, .error e)

def mliftE {α : Type} (r : Except Err α) : M α := fun s => (s, r)

def mbind {α β : Type} (m : M α) (k : α → M β) : M β := fun s =>
  match m s with
  | (s1, .ok a) => k a s1
  | (s1, .error e) => (s1, .error e)

instance : Monad M where
  pure := mpure
  bind := mbind

def getState : M UState := fun s => (s, .ok s)

def setBundle (b : Option BundledStrings) : M Unit :=
  fun s => ({ s with bundle := b }, .ok ())

def setRecords (r : Option (List (Nat × List PyStr))) : M Unit :=
  fun s => ({ s with records := r }, .ok ())

/-- One item of a restrict argument to Unpacker.step: an exact code or an
inclusive (low, high) range, as in constants.py. -/
inductive RItem where
  | code (c : Nat)
  | range (lo hi : Nat)

abbrev Restrict := List RItem

/-- constants.py UINT group. -/
def UINT : Restrict := [.range 0x00 0x3F, .code 0xCC, .code 0xCD, .code 0xCE, .code 0xCF]

/-- constants.py INT group. -/
def INT : Restrict := UINT ++ [.range 0xE0 0xFF, .code 0xD0, .code 0xD1, .code 0xD2, .code 0xD3]

/-- constants.py STR group. -/
def STR : Restrict := [.range 0xA0 0xBF, .code 0xD9, .code 0xDA, .code 0xDB]

/-- constants.py ARRAY group. -/
def ARRAY : Restrict := [.range 0x90 0x9F, .code 0xDC, .code 0xDD]

/-- constants.py MAP group. -/
def MAP : Restrict := [.range 0x80 0x8F, .code 0xDE, .code 0xDF]

/-- The any(...) test of the restrict check in Unpacker.step. -/
def restrictOk (r : Restrict) (code : Nat) : Bool :=
  r.any fun it =>
    match it with
    | .code c => c == code
    | .range lo hi => lo ≤ code && code ≤ hi

/-- datetime.fromtimestamp(t) at an integer t: models CPython on a system whose
local offset is zero (all claims only compare values this same function built,
so a constant offset cannot affect them); succeeds exactly on the representable
datetime range (year 1 to year 9999) and carries zero microseconds. -/
def fromtimestamp (t : Int) : Except Err Value :=
  if -62135596800 ≤ t ∧ t ≤ 253402300799 then .ok (.datetime t 0) else .error .dtRange

/-- d.replace(microsecond=m): datetime validates 0 <= m <= 999999. -/
def replaceMicrosecond (d : Value) (m : Nat) : Except Err Value :=
  if m ≤ 999999 then
    match d with
    | .datetime sec _ => .ok (.datetime sec m)
    | _ => .error .typeError
  else .error .usecRange

/-- TimestampExtension.unpack (extension.py).  The masks and shifts of the
source are written as explicit mod and division by powers of two:
e & 0x3FFFFFFFF is e % 2^34, e >> 34 is e / 2^34, and so on. -/
def TimestampExtension.unpack (data : List Nat) (pos length : Nat) : Except Err Value :=
  if length = 4 then
    fromtimestamp (bytesToNat (pySlice data pos (pos + length)))
  else if length = 8 then
    let e := bytesToNat (pySlice data pos (pos + length))
    match fromtimestamp ((e % 2 ^ 34 : Nat) : Int) with
    | .ok d => replaceMicrosecond d (e / 2 ^ 34 / 1000)
    | .error er => .error er
  else if length = 12 then
    let e := bytesToNat (pySlice data pos (pos + length))
    match fromtimestamp ((e % 2 ^ 64 : Nat) : Int) with
    | .ok d => replaceMicrosecond d (e / 2 ^ 64 * 1000)
    | .error er => .error er
  else .error .badTimestampLen

/-- BigIntExtension.unpack: big-endian magnitude. -/
def BigIntExtension.unpack (data : List Nat) (pos length : Nat) : Except Err Value :=
  .ok (.int (bytesToNat (pySlice data pos (pos + length))))

/-- BundledStringsExtension.unpack: reads one big-endian uint32 from the
payload and builds a BundledStrings whose offset is that value minus the
declared payload length. -/
def BundledStringsExtension.unpack (data : List Nat) (pos length : Nat) : Except Err Value :=
  match readUIntBE 4 data pos with
  | .ok u => .ok (.bsObj (BundledStrings.init (some ((u : Int) - (length : Int)))))
  | .error e => .error e

/-- RecordExtension.unpack.  Note the masked identifier1 is reused in the
length-2 branch, and the source computes identifier2 << 5 + identifier1, which
by Python precedence is a shift by (5 + identifier1); it is kept as written. -/
def RecordExtension.unpack (data : List Nat) (pos length : Nat) : Except Err Value :=
  match data.get? pos with
  | none => .error .indexError
  | some identifier1 =>
    if 0x40 ≤ identifier1 ∧ identifier1 ≤ 0x7F then
      let id1 := identifier1 % 0x40      -- identifier1 &= 0x3F
      if length = 1 then .ok (.int id1)
      else if length = 2 then
        match data.get? (pos + 1) with
        | none => .error .indexError
        | some identifier2 => .ok (.int (identifier2 * 2 ^ (5 + id1)))
      else .error .badRecordIdLen
    else .error .badRecordId

/-- extension.unpack dispatch: UndefinedExtension yields the UNDEFINED
sentinel; ErrorExtension.unpack and SetExtension.unpack return None. -/
def extUnpack (e : Ext) (data : List Nat) (pos length : Nat) : Except Err Value :=
  match e with
  | .timestamp => TimestampExtension.unpack data pos length
  | .undefined => .ok .undefined
  | .bigint => BigIntExtension.unpack data pos length
  | .bundledStrings => BundledStringsExtension.unpack data pos length
  | .error => .ok .nil
  | .record => RecordExtension.unpack data pos length
  | .set => .ok .nil

/-- Unpacker.check_data_length(length, data). -/
def check_data_length (length : Nat) (data : List Nat) : Except Err Unit :=
  if data.length < length then .error .shortBuffer else .ok ()

/-- Unpacker.skip_bundle(pos): when an active bundle begins exactly at pos,
jump to its end and clear it.  Reading bundle.begin on a bundle whose bounds
were never assigned (a restored copy) is an AttributeError. -/
def skip_bundle (pos : Nat) : M Nat := fun s =>
  match s.bundle with
  | none => (s, .ok pos)
  | some b =>
    match b.bounds with
    | none => (s, .error .attrError)
    | some (bg, en) =>
      if bg = pos then ({ s with bundle := none }, .ok en) else (s, .ok pos)

/-- The signature of Unpacker.step, as seen by the handlers that recurse. -/
abbrev StepFn := List Nat → Nat → Option Restrict → M (Nat × Value)

/-- Unpacker.bin (BIN8/BIN16/BIN32): stn is the size-field width, which also
is the offset in the source's partial applications. -/
def binHandler (data : List Nat) (pos stn offset : Nat) : M (Nat × Value) := do
  let beg := pos + offset
  let _ ← mliftE (check_data_length beg data)
  let size ← mliftE (readUIntBE stn data pos)
  mpure (beg + size, Value.bin (pySlice data beg (beg + size)))

/-- Unpacker.int for the UINT8..UINT64 and INT8..INT64 codes: size bytes at
pos, signed per the struct of the code. -/
def intHandler (data : List Nat) (pos size : Nat) (signed : Bool) : M (Nat × Value) := do
  let en := pos + size
  let _ ← mliftE (check_data_length en data)
  if signed then do
    let v ← mliftE (readIntBE size data pos)
    mpure (en, Value.int v)
  else do
    let v ← mliftE (readUIntBE size data pos)
    mpure (en, Value.int (v : Int))

/-- Unpacker.float for FLOAT32/FLOAT64: the raw big-endian payload is kept as
the value (no claim interprets the IEEE encoding). -/
def floatHandler (data : List Nat) (pos size : Nat) : M (Nat × Value) := do
  let en := pos + size
  let _ ← mliftE (check_data_length en data)
  if size = 4 then mpure (en, Value.float32 (pySlice data pos en))
  else mpure (en, Value.float64 (pySlice data pos en))

/-- Unpacker.str (STR8/STR16/STR32).  unpack() always hands the handlers a
memoryview, so the memoryview branch data[pos:end].tobytes().decode() is the
one modelled. -/
def strHandler (data : List Nat) (pos stn offset : Nat) : M (Nat × Value) := do
  let _ ← mliftE (check_data_length (pos + offset) data)
  let size ← mliftE (readUIntBE stn data pos)
  let pos1 := pos + offset
  let en := pos1 + size
  let _ ← mliftE (check_data_length en data)
  let cs ← mliftE (utf8Decode (pySlice data pos1 en))
  mpure (en, Value.str cs)

/-- Unpacker.fixstr: the low 5 bits of the lead byte give the byte length. -/
def fixstrHandler (data : List Nat) (code pos : Nat) : M (Nat × Value) := do
  let size := code % 0x20      -- code & 0x1F
  let en := pos + size
  let _ ← mliftE (check_data_length en data)
  let cs ← mliftE (utf8Decode (pySlice data pos en))
  mpure (en, Value.str cs)

/-- The element loop of Unpacker.array and Unpacker.fixarray. -/
def arrayLoop (stepF : StepFn) (data : List Nat) : Nat → Nat → M (Nat × List Value)
  | 0, pos => mpure (pos, [])
  | n + 1, pos => do
    let (pos1, v) ← stepF data pos none
    let (pos2, vs) ← arrayLoop stepF data n pos1
    mpure (pos2, v :: vs)

/-- The entry loop of Unpacker.map and Unpacker.fixmap: each iteration decodes
a key then a value and performs ret_map[key] = value. -/
def mapLoop (stepF : StepFn) (data : List Nat) :
    Nat → Nat → List (Value × Value) → M (Nat × List (Value × Value))
  | 0, pos, acc => mpure (pos, acc)
  | n + 1, pos, acc => do
    let (p1, k) ← stepF data pos none
    let (p2, v) ← stepF data p1 none
    let acc1 ← mliftE (pyDictSet acc k v)
    mapLoop stepF data n p2 acc1

/-- Unpacker.array (ARRAY16/ARRAY32). -/
def arrayHandler (stepF : StepFn) (data : List Nat) (pos stn offset : Nat) :
    M (Nat × Value) := do
  let en := pos + offset
  let _ ← mliftE (check_data_length en data)
  let size ← mliftE (readUIntBE stn data pos)
  let (p1, vs) ← arrayLoop stepF data size en
  mpure (p1, Value.arr vs)

/-- Unpacker.map (MAP16/MAP32). -/
def mapHandler (stepF : StepFn) (data : List Nat) (pos stn offset : Nat) :
    M (Nat × Value) := do
  let en := pos + offset
  let _ ← mliftE (check_data_length en data)
  let size ← mliftE (readUIntBE stn data pos)
  let (p1, kvs) ← mapLoop stepF data size en []
  mpure (p1, Value.map kvs)

/-- The value loop of RecordExtension.post_unpack: record[key] = value for each
cached key in order. -/
def recordLoop (stepF : StepFn) (data : List Nat) :
    List PyStr → Nat → List (Value × Value) → M (Nat × List (Value × Value))
  | [], pos, acc => mpure (pos, acc)
  | key :: keys, pos, acc => do
    let (p1, v) ← stepF data pos none
    let acc1 ← mliftE (pyDictSet acc (Value.str key) v)
    recordLoop stepF data keys p1 acc1

/-- The key-list validation of RecordExtension.post_unpack: the decoded value
must be a list whose elements are all str. -/
def asRecordKeys : Value → Option (List PyStr)
  | .arr vs => vs.mapM fun v => match v with | .str s => some s | _ => none
  | _ => none

/-- RecordExtension.post_unpack(data, pos, ret): reuse the cached key list for
ret, or decode one ARRAY-restricted key list, validate it, store it under ret,
then decode one value per key into an insertion-ordered record. -/
def RecordExtension.post_unpack (stepF : StepFn) (data : List Nat) (pos ret : Nat) :
    M (Nat × Value) := do
  let s ← getState
  match s.records with
  | none => mthrow .recordsDisabled
  | some records =>
    match dictGet records ret with
    | some keys => do
      let (p1, kvs) ← recordLoop stepF data keys pos []
      mpure (p1, Value.map kvs)
    | none => do
      let (p1, keysV) ← stepF data pos (some ARRAY)
      match asRecordKeys keysV with
      | none => mthrow .badRecordKeys
      | some keys => do
        -- records[ret] = keys, on the dict the decoder aliases at this point
        let s1 ← getState
        match s1.records with
        | none => mthrow .attrError  -- unreachable: no decode clears records
        | some records1 => do
          let _ ← setRecords (some (dictSet records1 ret keys))
          let (p2, kvs) ← recordLoop stepF data keys p1 []
          mpure (p2, Value.map kvs)

/-- BundledStringsExtension.post_unpack: decode the two pooled strings at
pos + string_offset under the STR restriction, install the populated pool on
the decoder, and yield SKIP while leaving the reading position at pos. -/
def BundledStringsExtension.post_unpack (stepF : StepFn) (data : List Nat) (pos : Nat)
    (ret : Value) : M (Nat × Value) :=
  match ret with
  | .bsObj bs =>
    match bs.string_offset with
    | none => mthrow .assertFail
    | some off =>
      -- begin = pos + string_offset
      if (pos : Int) + off < 0 then mthrow .negativePos
      else do
        let (offset1, string1) ← stepF data ((pos : Int) + off).toNat (some STR)
        let (en, string2) ← stepF data offset1 (some STR)
        match string1, string2 with
        | .str s1, .str s2 => do
          let _ ← setBundle (some (bs.populate (s1, s2) ((pos : Int) + off).toNat en))
          mpure (pos, Value.skip)
        | _, _ => mthrow .typeError  -- unreachable: STR-restricted decodes yield str
  | _ => mthrow .assertFail

/-- ErrorExtension.post_unpack: one ARRAY-restricted decode that must carry
exactly three values (type, message, cause). -/
def ErrorExtension.post_unpack (stepF : StepFn) (data : List Nat) (pos : Nat) :
    M (Nat × Value) := do
  let (p1, values) ← stepF data pos (some ARRAY)
  match values with
  | .arr vs =>
    -- len(values) != 3 raises, else Error(*values)
    match vs with
    | [a, b, c] => mpure (p1, Value.errObj a b c)
    | _ => mthrow .badErrorExt
  | _ => mthrow .typeError  -- unreachable: ARRAY-restricted decodes yield arrays

/-- SetExtension.post_unpack: one ARRAY-restricted decode, returned as is. -/
def SetExtension.post_unpack (stepF : StepFn) (data : List Nat) (pos : Nat) :
    M (Nat × Value) :=
  stepF data pos (some ARRAY)

/-- extension.post_unpack dispatch, guarded in the callers by isWithPost. -/
def post_unpack (stepF : StepFn) (e : Ext) (data : List Nat) (pos : Nat) (ret : Value) :
    M (Nat × Value) :=
  match e with
  | .bundledStrings => BundledStringsExtension.post_unpack stepF data pos ret
  | .error => ErrorExtension.post_unpack stepF data pos
  | .record =>
    match ret with
    | .int n => RecordExtension.post_unpack stepF data pos n.toNat
    | _ => mthrow .assertFail
  | .set => SetExtension.post_unpack stepF data pos
  | _ => mthrow .assertFail  -- extensions without a post_unpack never reach here

/-- The shared tail of Unpacker.ext and Unpacker.fixext: look up the extension
type, run its unpack on the payload, then its post_unpack from en when the
extension declares one. -/
def extTail (stepF : StepFn) (data : List Nat) (payloadPos size en : Nat)
    (extType : Int) : M (Nat × Value) := do
  let s ← getState
  match dictGet s.extensions extType with
  | none => mthrow .unknownExt
  | some ext => do
    let ret ← mliftE (extUnpack ext data payloadPos size)
    if ext.isWithPost then post_unpack stepF ext data en ret
    else mpure (en, ret)

/-- Unpacker.ext (EXT8/EXT16/EXT32): size field at pos, type byte at
pos + offset, payload after it, end past the payload. -/
def extHandler (stepF : StepFn) (data : List Nat) (pos stn offset : Nat) :
    M (Nat × Value) := do
  let beg := pos + offset
  let _ ← mliftE (check_data_length beg data)
  let size ← mliftE (readUIntBE stn data pos)
  let extType ← mliftE (readIntBE 1 data beg)
  extTail stepF data (beg + 1) size (beg + size + 1) extType

/-- Unpacker.fixext (FIXEXT1..FIXEXT16): type byte at pos, fixed-size payload
after it. -/
def fixextHandler (stepF : StepFn) (data : List Nat) (pos size : Nat) :
    M (Nat × Value) := do
  let beg := pos + 1
  let en := beg + size
  let _ ← mliftE (check_data_length en data)
  let extType ← mliftE (readIntBE 1 data pos)
  extTail stepF data beg size en extType

/-- Unpacker.bundled_string (lead byte 0xC1): requires an active bundle, reads
an INT-restricted length, then consumes that slice from the pool the decoder
holds after that read. -/
def bundled_string (stepF : StepFn) (data : List Nat) (pos : Nat) : M (Nat × Value) := do
  let s ← getState
  match s.bundle with
  | none => mthrow .noBundledStrings
  | some _ => do
    let (p1, sizeV) ← stepF data pos (some INT)
    let s1 ← getState
    match s1.bundle with
    | none => mthrow .attrError  -- self.bundle was cleared by the inner decode
    | some b =>
      match sizeV with
      | .int n =>
        match b.consume_string n false with
        | .ok (slice, b1) => do
          let _ ← setBundle (some b1)
          mpure (p1, Value.str slice)
        | .error e => mthrow e
      | _ => mthrow .typeError  -- unreachable: INT-restricted decodes yield int

/-- Unpacker.positive_fixint (range 0x00..0x3F). -/
def positive_fixint (code pos : Nat) : M (Nat × Value) :=
  mpure (pos, Value.int (code : Int))

/-- Unpacker.negative_fixint (range 0xE0..0xFF): value = code - 0x100. -/
def negative_fixint (code pos : Nat) : M (Nat × Value) :=
  mpure (pos, Value.int ((code : Int) - 0x100))

/-- Unpacker.fixmap: the low 4 bits of the lead byte give the entry count. -/
def fixmapHandler (stepF : StepFn) (data : List Nat) (code pos : Nat) : M (Nat × Value) := do
  let (p1, kvs) ← mapLoop stepF data (code % 16) pos []
  mpure (p1, Value.map kvs)

/-- Unpacker.fixarray: the low 4 bits of the lead byte give the element count. -/
def fixarrayHandler (stepF : StepFn) (data : List Nat) (code pos : Nat) : M (Nat × Value) := do
  let (p1, vs) ← arrayLoop stepF data (code % 16) pos
  mpure (p1, Value.arr vs)

/-- Unpacker.record (range 0x40..0x7F): a positive fixint when records are
disabled, else RecordExtension.post_unpack on the low six bits. -/
def recordRange (stepF : StepFn) (data : List Nat) (code pos : Nat) : M (Nat × Value) := do
  let s ← getState
  match s.records with
  | none => mpure (pos, Value.int (code : Int))
  | some _ => RecordExtension.post_unpack stepF data pos (code % 0x40)

/-- The tail of the fixed-code branch of Unpacker.step: a SKIP result chains
into one more decode, then skip_bundle runs on the final position. -/
def afterFixed (stepF : StepFn) (data : List Nat) (m : M (Nat × Value)) :
    M (Nat × Value) := do
  let (pos, ret) ← m
  match ret with
  | .skip => do
    let (pos1, ret1) ← stepF data pos none
    let pos2 ← skip_bundle pos1
    mpure (pos2, ret1)
  | _ => do
    let pos2 ← skip_bundle pos
    mpure (pos2, ret)

/-- The tail of the range-code branch of Unpacker.step: skip_bundle only. -/
def afterRange (m : M (Nat × Value)) : M (Nat × Value) := do
  let (pos, ret) ← m
  let pos2 ← skip_bundle pos
  mpure (pos2, ret)

/-- The dispatch of Unpacker.step once the lead byte is read and the restrict
check passed: CODES_FIXED entries (through afterFixed), the special 0xC1
branch, then CODES_RANGES entries (through afterRange).  The tables are
disjoint, so the equivalent ordered if-chain is used. -/
def dispatch (stepF : StepFn) (data : List Nat) (code pos : Nat) : M (Nat × Value) :=
  if code = 0xC0 then afterFixed stepF data (mpure (0, Value.nil))        -- NIL
  else if code = 0xC1 then bundled_string stepF data pos                  -- BUNDLED_STRINGS
  else if code = 0xC2 then afterFixed stepF data (mpure (0, Value.bool false))
  else if code = 0xC3 then afterFixed stepF data (mpure (0, Value.bool true))
  else if code = 0xC4 then afterFixed stepF data (binHandler data pos 1 1)
  else if code = 0xC5 then afterFixed stepF data (binHandler data pos 2 2)
  else if code = 0xC6 then afterFixed stepF data (binHandler data pos 4 4)
  else if code = 0xC7 then afterFixed stepF data (extHandler stepF data pos 1 1)
  else if code = 0xC8 then afterFixed stepF data (extHandler stepF data pos 2 2)
  else if code = 0xC9 then afterFixed stepF data (extHandler stepF data pos 4 4)
  else if code = 0xCA then afterFixed stepF data (floatHandler data pos 4)
  else if code = 0xCB then afterFixed stepF data (floatHandler data pos 8)
  else if code = 0xCC then afterFixed stepF data (intHandler data pos 1 false)
  else if code = 0xCD then afterFixed stepF data (intHandler data pos 2 false)
  else if code = 0xCE then afterFixed stepF data (intHandler data pos 4 false)
  else if code = 0xCF then afterFixed stepF data (intHandler data pos 8 false)
  else if code = 0xD0 then afterFixed stepF data (intHandler data pos 1 true)
  else if code = 0xD1 then afterFixed stepF data (intHandler data pos 2 true)
  else if code = 0xD2 then afterFixed stepF data (intHandler data pos 4 true)
  else if code = 0xD3 then afterFixed stepF data (intHandler data pos 8 true)
  else if code = 0xD4 then afterFixed stepF data (fixextHandler stepF data pos 1)
  else if code = 0xD5 then afterFixed stepF data (fixextHandler stepF data pos 2)
  else if code = 0xD6 then afterFixed stepF data (fixextHandler stepF data pos 4)
  else if code = 0xD7 then afterFixed stepF data (fixextHandler stepF data pos 8)
  else if code = 0xD8 then afterFixed stepF data (fixextHandler stepF data pos 16)
  else if code = 0xD9 then afterFixed stepF data (strHandler data pos 1 1)
  else if code = 0xDA then afterFixed stepF data (strHandler data pos 2 2)
  else if code = 0xDB then afterFixed stepF data (strHandler data pos 4 4)
  else if code = 0xDC then afterFixed stepF data (arrayHandler stepF data pos 2 2)
  else if code = 0xDD then afterFixed stepF data (arrayHandler stepF data pos 4 4)
  else if code = 0xDE then afterFixed stepF data (mapHandler stepF data pos 2 2)
  else if code = 0xDF then afterFixed stepF data (mapHandler stepF data pos 4 4)
  else if code ≤ 0x3F then afterRange (positive_fixint code pos)
  else if code ≤ 0x7F then afterRange (recordRange stepF data code pos)
  else if code ≤ 0x8F then afterRange (fixmapHandler stepF data code pos)
  else if code ≤ 0x9F then afterRange (fixarrayHandler stepF data code pos)
  else if code ≤ 0xBF then afterRange (fixstrHandler data code pos)
  else if 0xE0 ≤ code ∧ code ≤ 0xFF then afterRange (negative_fixint code pos)
  else mthrow .invalidCode

/-- One layer of Unpacker.step: read the lead byte, advance, enforce the
restrict set, dispatch. -/
def stepBody (stepF : StepFn) (data : List Nat) (pos0 : Nat)
    (restrict : Option Restrict) : M (Nat × Value) := do
  let code ← mliftE (readUIntBE 1 data pos0)
  let pos := pos0 + 1
  if (match restrict with
      | some r => !(restrictOk r code)
      | none => false) then mthrow .restricted
  else dispatch stepF data code pos

/-- Unpacker.step, with fuel bounding the recursion depth the Python code
leaves unbounded: step (fuel+1) performs one dispatch whose nested decodes run
at fuel. -/
def step : Nat → StepFn
  | 0 => fun _ _ _ => mthrow .fuel
  | fuel + 1 => stepBody (step fuel)

/-- The result of Unpacker.unpack: a single value, or the list collected when
multiple is set (also the value returned for an empty buffer). -/
inductive UnpackResult where
  | one (v : Value)
  | many (vs : List Value)

/-- The while loop of Unpacker.unpack. -/
def unpackLoop : Nat → List Nat → Nat → Bool → Bool → Nat → List Value → M UnpackResult
  | fuel, data, length, multiple, allow_remaining, pos, acc =>
    if pos < length then
      match fuel with
      | 0 => mthrow .fuel
      | f + 1 => do
        let (pos1, ret) ← step f data pos none
        if !multiple then
          if !allow_remaining && decide (pos1 < length) then mthrow .trailingData
          else mpure (UnpackResult.one ret)
        else unpackLoop f data length multiple allow_remaining pos1 (acc ++ [ret])
    else mpure (UnpackResult.many acc)

/-- Unpacker.unpack(data, multiple, allow_remaining): wraps the buffer in a
memoryview (the identity here) and runs the loop from position zero. -/
def Unpacker.unpack (fuel : Nat) (data : List Nat) (multiple allow_remaining : Bool) :
    M UnpackResult :=
  unpackLoop fuel data data.length multiple allow_remaining 0 []

/-- Unpacker.register_extensions(*exts, replace=replace): one pass over exts;
a duplicate raises mid-loop, leaving every earlier extension registered. -/
def register_extensions : List Ext → Bool → M Unit
  | [], _ => mpure ()
  | ext :: rest, replace => fun s =>
    if !replace && (dictGet s.extensions ext.EXT_TYPE).isSome then (s, .error .duplicateExt)
    else register_extensions rest replace
      { s with extensions := dictSet s.extensions ext.EXT_TYPE ext }

/-- Unpacker.__init__(enable_bundled_strings, enable_records).  The default
registrations use distinct codes, so the Except results discarded here are ok. -/
def Unpacker.init (enable_bundled_strings enable_records : Bool) : UState :=
  let s0 : UState :=
    { extensions := [], enable_bundled_strings := enable_bundled_strings,
      records := none, bundle := none }
  let s1 := (register_extensions [.timestamp, .undefined, .record, .set] false s0).1
  let s2 :=
    if enable_bundled_strings then (register_extensions [.bundledStrings] false s1).1
    else s1
  { s2 with records := if enable_records then some [] else none, bundle := none }

/-- The dict Unpacker.export_state returns. -/
structure Snapshot where
  bundle : Option BundledStrings
  records : List (Nat × List PyStr)

/-- Unpacker.export_state(): the bundle is copied via BundledStrings.copy and
the records dict shallow-copied; records.copy() on None is an AttributeError. -/
def export_state (s : UState) : Except Err Snapshot :=
  match s.records with
  | none => .error .attrError
  | some records => .ok { bundle := s.bundle.map BundledStrings.copy, records := records }

/-- Unpacker.restore_state(state, copy). -/
def restore_state (s : UState) (st : Snapshot) (copy : Bool) : UState :=
  { s with
    bundle := if copy then st.bundle.map BundledStrings.copy else st.bundle,
    records := some st.records }

/-! Association-list dictionary lemmas. -/

theorem dictGet_dictSet_self {κ ν : Type} [DecidableEq κ] (l : List (κ × ν)) (k : κ) (v : ν) :
    dictGet (dictSet l k v) k = some v := by
  induction l with
  | nil => simp [dictGet, dictSet]
  | cons hd tl ih =>
    obtain ⟨k0, v0⟩ := hd
    simp only [dictSet]
    by_cases h : k0 = k
    · rw [if_pos h]
      simp only [dictGet]
      rw [if_pos h]
    · rw [if_neg h]
      simp only [dictGet]
      rw [if_neg h]
      exact ih

theorem dictGet_dictSet_ne {κ ν : Type} [DecidableEq κ] (l : List (κ × ν)) (k k' : κ) (v : ν)
    (h : k' ≠ k) : dictGet (dictSet l k v) k' = dictGet l k' := by
  induction l with
  | nil =>
    simp only [dictSet, dictGet]
    rw [if_neg (Ne.symm h)]
  | cons hd tl ih =>
    obtain ⟨k0, v0⟩ := hd
    simp only [dictSet]
    by_cases h0 : k0 = k
    · subst h0
      rw [if_pos rfl]
      simp only [dictGet]
      rw [if_neg (Ne.symm h), if_neg (Ne.symm h)]
    · rw [if_neg h0]
      simp only [dictGet]
      by_cases h1 : k0 = k'
      · rw [if_pos h1, if_pos h1]
      · rw [if_neg h1, if_neg h1]
        exact ih

/-! Big-endian byte-string lemmas, used for the timestamp claim. -/

/-- The n-byte big-endian encoding of v (the claim-side description of the
timestamp payload layouts). -/
def natToBytesBE : Nat → Nat → List Nat
  | 0, _ => []
  | n + 1, v => natToBytesBE n (v / 256) ++ [v % 256]

theorem length_natToBytesBE (n v : Nat) : (natToBytesBE n v).length = n := by
  induction n generalizing v with
  | zero => rfl
  | succ n ih => simp [natToBytesBE, ih]

theorem bytesToNat_foldl (bs : List Nat) (a : Nat) :
    bs.foldl (fun x b => x * 256 + b) a = a * 256 ^ bs.length + bytesToNat bs := by
  induction bs generalizing a with
  | nil => simp [bytesToNat]
  | cons b bs ih =>
    show bs.foldl _ (a * 256 + b) = _
    rw [ih (a * 256 + b)]
    have hb : bytesToNat (b :: bs) = b * 256 ^ bs.length + bytesToNat bs := by
      show bs.foldl _ (0 * 256 + b) = _
      rw [ih (0 * 256 + b)]
      ring
    rw [hb]
    simp [List.length_cons]
    ring

theorem bytesToNat_cons (c : Nat) (l : List Nat) :
    bytesToNat (c :: l) = c * 256 ^ l.length + bytesToNat l := by
  show l.foldl _ (0 * 256 + c) = _
  rw [bytesToNat_foldl]
  ring

theorem bytesToNat_append (a b : List Nat) :
    bytesToNat (a ++ b) = bytesToNat a * 256 ^ b.length + bytesToNat b := by
  induction a with
  | nil => simp [bytesToNat]
  | cons x a ih =>
    rw [List.cons_append, bytesToNat_cons, bytesToNat_cons, ih, List.length_append]
    ring

theorem bytesToNat_singleton (c : Nat) : bytesToNat [c] = c := by
  rw [bytesToNat_cons]
  simp [bytesToNat]

theorem bytesToNat_natToBytesBE (n v : Nat) (h : v < 256 ^ n) :
    bytesToNat (natToBytesBE n v) = v := by
  induction n generalizing v with
  | zero =>
    have hv : v = 0 := Nat.lt_one_iff.mp (by simpa using h)
    subst hv
    rfl
  | succ n ih =>
    have hdiv : v / 256 < 256 ^ n := by
      rw [Nat.div_lt_iff_lt_mul (by norm_num)]
      calc v < 256 ^ (n + 1) := h
        _ = 256 ^ n * 256 := by ring
    show bytesToNat (natToBytesBE n (v / 256) ++ [v % 256]) = v
    rw [bytesToNat_append, ih (v / 256) hdiv, bytesToNat_singleton]
    simp only [List.length_singleton, pow_one]
    omega

theorem pySlice_full (bs : List Nat) (k : Nat) (h : bs.length ≤ k) :
    pySlice bs 0 k = bs := by
  unfold pySlice
  simp only [List.drop_zero, Nat.sub_zero]
  exact List.take_of_length_le h

/-! Lemmas about register_extensions, used for the registration claim. -/

theorem register_extensions_nil (replace : Bool) (s : UState) :
    register_extensions [] replace s = (s, .ok ()) := rfl

theorem register_extensions_cons (e : Ext) (rest : List Ext) (replace : Bool) (s : UState) :
    register_extensions (e :: rest) replace s =
      if (!replace && (dictGet s.extensions e.EXT_TYPE).isSome) = true
      then (s, .error .duplicateExt)
      else register_extensions rest replace
        { s with extensions := dictSet s.extensions e.EXT_TYPE e } := rfl

theorem register_extensions_append (exts1 exts2 : List Ext) (replace : Bool) (s : UState) :
    register_extensions (exts1 ++ exts2) replace s =
      match register_extensions exts1 replace s with
      | (s1, .ok _) => register_extensions exts2 replace s1
      | (s1, .error e) => (s1, .error e) := by
  induction exts1 generalizing s with
  | nil => rfl
  | cons e exts1 ih =>
    rw [List.cons_append, register_extensions_cons, register_extensions_cons]
    by_cases hc : (!replace && (dictGet s.extensions e.EXT_TYPE).isSome) = true
    · rw [if_pos hc, if_pos hc]
    · rw [if_neg hc, if_neg hc, ih]

theorem register_extensions_preserves {k : Int} {x : Ext} (exts : List Ext) (s s1 : UState)
    (hreg : register_extensions exts false s = (s1, .ok ()))
    (hget : dictGet s.extensions k = some x) :
    dictGet s1.extensions k = some x := by
  induction exts generalizing s with
  | nil =>
    rw [register_extensions_nil] at hreg
    cases hreg
    exact hget
  | cons e exts ih =>
    rw [register_extensions_cons] at hreg
    by_cases hc : (!false && (dictGet s.extensions e.EXT_TYPE).isSome) = true
    · rw [if_pos hc] at hreg
      simp at hreg
    · rw [if_neg hc] at hreg
      have hk : k ≠ e.EXT_TYPE := by
        intro hkk
        subst hkk
        rw [hget] at hc
        simp at hc
      apply ih _ hreg
      show dictGet (dictSet s.extensions e.EXT_TYPE e) k = some x
      rw [dictGet_dictSet_ne _ _ _ _ hk]
      exact hget

theorem register_extensions_success_lookup (exts : List Ext) (s s1 : UState)
    (hreg : register_extensions exts false s = (s1, .ok ())) :
    ∀ x ∈ exts, dictGet s1.extensions x.EXT_TYPE = some x := by
  induction exts generalizing s with
  | nil => intro x hx; cases hx
  | cons e exts ih =>
    intro x hx
    rw [register_extensions_cons] at hreg
    by_cases hc : (!false && (dictGet s.extensions e.EXT_TYPE).isSome) = true
    · rw [if_pos hc] at hreg
      simp at hreg
    · rw [if_neg hc] at hreg
      rcases List.mem_cons.mp hx with hx | hx
      · subst hx
        exact register_extensions_preserves exts _ _ hreg (dictGet_dictSet_self _ _ _)
      · exact ih _ hreg x hx

/-! Pointwise evaluation lemmas for the state monad. -/

theorem mpure_apply {α : Type} (a : α) (s : UState) : mpure a s = (s, .ok a) := rfl

theorem mthrow_apply {α : Type} (e : Err) (s : UState) :
    (mthrow e : M α) s = (s, .error e) := rfl

theorem mliftE_apply {α : Type} (r : Except Err α) (s : UState) : mliftE r s = (s, r) := rfl

theorem getState_apply (s : UState) : getState s = (s, .ok s) := rfl

theorem setBundle_apply (b : Option BundledStrings) (s : UState) :
    setBundle b s = ({ s with bundle := b }, .ok ()) := rfl

theorem setRecords_apply (r : Option (List (Nat × List PyStr))) (s : UState) :
    setRecords r s = ({ s with records := r }, .ok ()) := rfl

theorem bind_apply {α β : Type} (m : M α) (k : α → M β) (s : UState) :
    (m >>= k) s =
      match m s with
      | (s1, .ok a) => k a s1
      | (s1, .error e) => (s1, .error e) := rfl

theorem bind_apply_ok {α β : Type} {m : M α} {s s1 : UState} {a : α}
    (h : m s = (s1, .ok a)) (k : α → M β) : (m >>= k) s = k a s1 := by
  rw [bind_apply, h]

theorem bind_apply_error {α β : Type} {m : M α} {s s1 : UState} {e : Err}
    (h : m s = (s1, .error e)) (k : α → M β) : (m >>= k) s = (s1, .error e) := by
  rw [bind_apply, h]

/-! Records-cache monotonicity framework (for the records claim): every
operation of the decoder preserves the record entries present when it starts. -/

/-- The key list cached under id, when records are enabled and id is cached. -/
def recLookup (s : UState) (id : Nat) : Option (List PyStr) :=
  s.records.bind fun recs => dictGet recs id

theorem recLookup_of_records {s : UState} {recs : List (Nat × List PyStr)}
    (h : s.records = some recs) (id : Nat) : recLookup s id = dictGet recs id := by
  unfold recLookup
  rw [h, Option.some_bind]

/-- Every record entry of s is still present, unchanged, in s1. -/
def RecSub (s s1 : UState) : Prop :=
  ∀ id ks, recLookup s id = some ks → recLookup s1 id = some ks

theorem RecSub.refl (s : UState) : RecSub s s := fun _ _ h => h

theorem RecSub.trans {a b c : UState} (h1 : RecSub a b) (h2 : RecSub b c) : RecSub a c :=
  fun id ks h => h2 id ks (h1 id ks h)

/-- A computation in the decoder monad preserves existing record entries,
whether it returns or raises. -/
def Mono {α : Type} (m : M α) : Prop := ∀ s, RecSub s (m s).1

theorem mono_mpure {α : Type} (a : α) : Mono (mpure a) := fun s => RecSub.refl s

theorem mono_mthrow {α : Type} (e : Err) : Mono (mthrow e : M α) := fun s => RecSub.refl s

theorem mono_mliftE {α : Type} (r : Except Err α) : Mono (mliftE r) := fun s => RecSub.refl s

theorem mono_getState : Mono getState := fun s => RecSub.refl s

theorem mono_setBundle (b : Option BundledStrings) : Mono (setBundle b) :=
  fun _ _ _ h => h

theorem mono_bind {α β : Type} {m : M α} {k : α → M β}
    (hm : Mono m) (hk : ∀ a, Mono (k a)) : Mono (m >>= k) := by
  intro s
  rw [show ((m >>= k) s).1 =
      (match m s with
       | (s1, .ok a) => k a s1
       | (s1, .error e) => (s1, .error e)).1 from rfl]
  rcases hres : m s with ⟨s1, r⟩
  have h1 : RecSub s s1 := by
    have := hm s
    rwa [hres] at this
  cases r with
  | ok a => exact h1.trans (hk a s1)
  | error e => exact h1

theorem mono_ite {α : Type} {c : Prop} [Decidable c] {t e : M α}
    (ht : Mono t) (he : Mono e) : Mono (if c then t else e) := by
  by_cases h : c
  · rw [if_pos h]
    exact ht
  · rw [if_neg h]
    exact he

theorem recsub_getState_bind {α : Type} {f : UState → M α} {s0 : UState} (s : UState)
    (h : RecSub s0 ((f s) s).1) : RecSub s0 ((getState >>= f) s).1 := h

theorem recsub_bind {α β : Type} (m : M α) (k : α → M β) {s0 : UState} (s : UState)
    (hm : RecSub s0 (m s).1)
    (hk : ∀ a s1, m s = (s1, .ok a) → RecSub s0 (k a s1).1) :
    RecSub s0 ((m >>= k) s).1 := by
  rw [bind_apply]
  rcases hres : m s with ⟨s1, r⟩
  have h1 : RecSub s0 s1 := by
    rw [hres] at hm
    exact hm
  cases r with
  | ok a => exact hk a s1 hres
  | error e => exact h1

theorem mono_skip_bundle (pos : Nat) : Mono (skip_bundle pos) := by
  intro s
  unfold skip_bundle
  repeat' split
  all_goals exact fun id ks hh => hh

theorem mono_binHandler (data : List Nat) (pos stn offset : Nat) :
    Mono (binHandler data pos stn offset) := by
  unfold binHandler
  exact mono_bind (mono_mliftE _) fun _ => mono_bind (mono_mliftE _) fun _ => mono_mpure _

theorem mono_intHandler (data : List Nat) (pos size : Nat) (signed : Bool) :
    Mono (intHandler data pos size signed) := by
  unfold intHandler
  refine mono_bind (mono_mliftE _) fun _ => ?_
  split
  · exact mono_bind (mono_mliftE _) fun _ => mono_mpure _
  · exact mono_bind (mono_mliftE _) fun _ => mono_mpure _

theorem mono_floatHandler (data : List Nat) (pos size : Nat) :
    Mono (floatHandler data pos size) := by
  unfold floatHandler
  refine mono_bind (mono_mliftE _) fun _ => ?_
  split
  · exact mono_mpure _
  · exact mono_mpure _

theorem mono_strHandler (data : List Nat) (pos stn offset : Nat) :
    Mono (strHandler data pos stn offset) := by
  unfold strHandler
  exact mono_bind (mono_mliftE _) fun _ => mono_bind (mono_mliftE _) fun _ =>
    mono_bind (mono_mliftE _) fun _ => mono_bind (mono_mliftE _) fun _ => mono_mpure _

theorem mono_fixstrHandler (data : List Nat) (code pos : Nat) :
    Mono (fixstrHandler data code pos) := by
  unfold fixstrHandler
  exact mono_bind (mono_mliftE _) fun _ => mono_bind (mono_mliftE _) fun _ => mono_mpure _

theorem mono_arrayLoop {stepF : StepFn} (hstep : ∀ d p r, Mono (stepF d p r))
    (data : List Nat) : ∀ n pos, Mono (arrayLoop stepF data n pos) := by
  intro n
  induction n with
  | zero => intro pos; exact mono_mpure _
  | succ n ih =>
    intro pos
    unfold arrayLoop
    refine mono_bind (hstep _ _ _) ?_
    rintro ⟨pos1, v⟩
    refine mono_bind (ih pos1) ?_
    rintro ⟨pos2, vs⟩
    exact mono_mpure _

theorem mono_mapLoop {stepF : StepFn} (hstep : ∀ d p r, Mono (stepF d p r))
    (data : List Nat) : ∀ n pos acc, Mono (mapLoop stepF data n pos acc) := by
  intro n
  induction n with
  | zero => intro pos acc; exact mono_mpure _
  | succ n ih =>
    intro pos acc
    unfold mapLoop
    refine mono_bind (hstep _ _ _) ?_
    rintro ⟨p1, k⟩
    refine mono_bind (hstep _ _ _) ?_
    rintro ⟨p2, v⟩
    exact mono_bind (mono_mliftE _) fun acc1 => ih p2 acc1

theorem mono_recordLoop {stepF : StepFn} (hstep : ∀ d p r, Mono (stepF d p r))
    (data : List Nat) : ∀ keys pos acc, Mono (recordLoop stepF data keys pos acc) := by
  intro keys
  induction keys with
  | nil => intro pos acc; exact mono_mpure _
  | cons key keys ih =>
    intro pos acc
    unfold recordLoop
    refine mono_bind (hstep _ _ _) ?_
    rintro ⟨p1, v⟩
    exact mono_bind (mono_mliftE _) fun acc1 => ih p1 acc1

theorem mono_arrayHandler {stepF : StepFn} (hstep : ∀ d p r, Mono (stepF d p r))
    (data : List Nat) (pos stn offset : Nat) :
    Mono (arrayHandler stepF data pos stn offset) := by
  unfold arrayHandler
  refine mono_bind (mono_mliftE _) fun _ => mono_bind (mono_mliftE _) fun size => ?_
  refine mono_bind (mono_arrayLoop hstep data size _) ?_
  rintro ⟨p1, vs⟩
  exact mono_mpure _

theorem mono_mapHandler {stepF : StepFn} (hstep : ∀ d p r, Mono (stepF d p r))
    (data : List Nat) (pos stn offset : Nat) :
    Mono (mapHandler stepF data pos stn offset) := by
  unfold mapHandler
  refine mono_bind (mono_mliftE _) fun _ => mono_bind (mono_mliftE _) fun size => ?_
  refine mono_bind (mono_mapLoop hstep data size _ _) ?_
  rintro ⟨p1, kvs⟩
  exact mono_mpure _

theorem mono_fixmapHandler {stepF : StepFn} (hstep : ∀ d p r, Mono (stepF d p r))
    (data : List Nat) (code pos : Nat) : Mono (fixmapHandler stepF data code pos) := by
  unfold fixmapHandler
  refine mono_bind (mono_mapLoop hstep data _ _ _) ?_
  rintro ⟨p1, kvs⟩
  exact mono_mpure _

theorem mono_fixarrayHandler {stepF : StepFn} (hstep : ∀ d p r, Mono (stepF d p r))
    (data : List Nat) (code pos : Nat) : Mono (fixarrayHandler stepF data code pos) := by
  unfold fixarrayHandler
  refine mono_bind (mono_arrayLoop hstep data _ _) ?_
  rintro ⟨p1, vs⟩
  exact mono_mpure _

theorem mono_RecordExtension_post {stepF : StepFn} (hstep : ∀ d p r, Mono (stepF d p r))
    (data : List Nat) (pos ret : Nat) :
    Mono (RecordExtension.post_unpack stepF data pos ret) := by
  intro s
  unfold RecordExtension.post_unpack
  refine recsub_getState_bind s ?_
  try simp only []
  cases hrec : s.records with
  | none => exact RecSub.refl s
  | some records =>
    try simp only []
    cases hkeys : dictGet records ret with
    | some keys =>
      refine (mono_bind (mono_recordLoop hstep data keys pos []) ?_) s
      rintro ⟨p1, kvs⟩
      exact mono_mpure _
    | none =>
      refine recsub_bind _ _ s (hstep data pos (some ARRAY) s) ?_
      rintro ⟨p1, keysV⟩ s1 hst
      have hS1 : RecSub s s1 := by
        have := hstep data pos (some ARRAY) s
        rw [hst] at this
        exact this
      try simp only []
      cases hak : asRecordKeys keysV with
      | none => exact hS1
      | some keys =>
        try simp only []
        refine recsub_getState_bind s1 ?_
        try simp only []
        cases hrec1 : s1.records with
        | none => exact hS1
        | some records1 =>
          have hS2 : RecSub s { s1 with records := some (dictSet records1 ret keys) } := by
            intro id ks h
            have hid : id ≠ ret := by
              intro hh
              subst hh
              rw [recLookup_of_records hrec, hkeys] at h
              simp at h
            have h1 := hS1 id ks h
            rw [recLookup_of_records hrec1] at h1
            have hr2 : recLookup { s1 with records := some (dictSet records1 ret keys) } id
                = dictGet (dictSet records1 ret keys) id := recLookup_of_records rfl id
            rw [hr2, dictGet_dictSet_ne _ _ _ _ hid]
            exact h1
          refine hS2.trans ?_
          refine (mono_bind (mono_recordLoop hstep data keys p1 []) ?_) _
          rintro ⟨p2, kvs⟩
          exact mono_mpure _

theorem mono_BundledStringsExtension_post {stepF : StepFn}
    (hstep : ∀ d p r, Mono (stepF d p r)) (data : List Nat) (pos : Nat) (ret : Value) :
    Mono (BundledStringsExtension.post_unpack stepF data pos ret) := by
  cases ret
  case bsObj bs =>
    simp only [BundledStringsExtension.post_unpack]
    cases hso : bs.string_offset with
    | none => exact mono_mthrow _
    | some off =>
      refine mono_ite (mono_mthrow _) ?_
      refine mono_bind (hstep _ _ _) ?_
      rintro ⟨offset1, string1⟩
      refine mono_bind (hstep _ _ _) ?_
      rintro ⟨en, string2⟩
      cases string1 <;> cases string2 <;>
        first
          | exact mono_bind (mono_setBundle _) fun _ => mono_mpure _
          | exact mono_mthrow _
  all_goals exact mono_mthrow _

theorem mono_ErrorExtension_post {stepF : StepFn} (hstep : ∀ d p r, Mono (stepF d p r))
    (data : List Nat) (pos : Nat) :
    Mono (ErrorExtension.post_unpack stepF data pos) := by
  unfold ErrorExtension.post_unpack
  refine mono_bind (hstep _ _ _) ?_
  rintro ⟨p1, values⟩
  cases values
  case arr vs =>
    rcases vs with _ | ⟨a, _ | ⟨b, _ | ⟨c, _ | ⟨d, rest⟩⟩⟩⟩ <;>
      first
        | exact mono_mpure _
        | exact mono_mthrow _
  all_goals exact mono_mthrow _

theorem mono_post_unpack {stepF : StepFn} (hstep : ∀ d p r, Mono (stepF d p r))
    (e : Ext) (data : List Nat) (pos : Nat) (ret : Value) :
    Mono (post_unpack stepF e data pos ret) := by
  cases e with
  | bundledStrings => exact mono_BundledStringsExtension_post hstep data pos ret
  | error => exact mono_ErrorExtension_post hstep data pos
  | record =>
    cases ret
    case int n => exact mono_RecordExtension_post hstep data pos n.toNat
    all_goals exact mono_mthrow _
  | set => exact hstep data pos _
  | timestamp => exact mono_mthrow _
  | undefined => exact mono_mthrow _
  | bigint => exact mono_mthrow _

theorem mono_extTail {stepF : StepFn} (hstep : ∀ d p r, Mono (stepF d p r))
    (data : List Nat) (payloadPos size en : Nat) (extType : Int) :
    Mono (extTail stepF data payloadPos size en extType) := by
  intro s
  unfold extTail
  refine recsub_getState_bind s ?_
  try simp only []
  cases hext : dictGet s.extensions extType with
  | none => exact RecSub.refl s
  | some ext =>
    try simp only []
    cases hu : extUnpack ext data payloadPos size with
    | error e => exact RecSub.refl s
    | ok ret => exact (mono_ite (mono_post_unpack hstep ext data en ret) (mono_mpure _)) s

theorem mono_extHandler {stepF : StepFn} (hstep : ∀ d p r, Mono (stepF d p r))
    (data : List Nat) (pos stn offset : Nat) :
    Mono (extHandler stepF data pos stn offset) := by
  unfold extHandler
  exact mono_bind (mono_mliftE _) fun _ => mono_bind (mono_mliftE _) fun size =>
    mono_bind (mono_mliftE _) fun extType => mono_extTail hstep data _ _ _ _

theorem mono_fixextHandler {stepF : StepFn} (hstep : ∀ d p r, Mono (stepF d p r))
    (data : List Nat) (pos size : Nat) :
    Mono (fixextHandler stepF data pos size) := by
  unfold fixextHandler
  exact mono_bind (mono_mliftE _) fun _ =>
    mono_bind (mono_mliftE _) fun extType => mono_extTail hstep data _ _ _ _

theorem mono_bundled_string {stepF : StepFn} (hstep : ∀ d p r, Mono (stepF d p r))
    (data : List Nat) (pos : Nat) :
    Mono (bundled_string stepF data pos) := by
  intro s
  unfold bundled_string
  refine recsub_getState_bind s ?_
  try simp only []
  cases hb : s.bundle with
  | none => exact RecSub.refl s
  | some b0 =>
    refine recsub_bind _ _ s (hstep data pos (some INT) s) ?_
    rintro ⟨p1, sizeV⟩ s1 hst
    have hS1 : RecSub s s1 := by
      have := hstep data pos (some INT) s
      rw [hst] at this
      exact this
    try simp only []
    refine recsub_getState_bind s1 ?_
    try simp only []
    cases hb1 : s1.bundle with
    | none => exact hS1
    | some b =>
      cases sizeV
      case int n =>
        try simp only []
        cases hcs : b.consume_string n false with
        | ok sb =>
          obtain ⟨slice, b1⟩ := sb
          exact hS1
        | error e => exact hS1
      all_goals exact hS1

theorem mono_positive_fixint (code pos : Nat) : Mono (positive_fixint code pos) :=
  mono_mpure _

theorem mono_negative_fixint (code pos : Nat) : Mono (negative_fixint code pos) :=
  mono_mpure _

theorem mono_recordRange {stepF : StepFn} (hstep : ∀ d p r, Mono (stepF d p r))
    (data : List Nat) (code pos : Nat) :
    Mono (recordRange stepF data code pos) := by
  intro s
  unfold recordRange
  refine recsub_getState_bind s ?_
  try simp only []
  cases hrec : s.records with
  | none => exact RecSub.refl s
  | some records => exact mono_RecordExtension_post hstep data pos _ s

theorem mono_afterFixed {stepF : StepFn} {m : M (Nat × Value)}
    (hm : Mono m) (hstep : ∀ d p r, Mono (stepF d p r)) (data : List Nat) :
    Mono (afterFixed stepF data m) := by
  unfold afterFixed
  refine mono_bind hm ?_
  rintro ⟨pos, ret⟩
  cases ret
  case skip =>
    refine mono_bind (hstep _ _ _) ?_
    rintro ⟨pos1, ret1⟩
    exact mono_bind (mono_skip_bundle _) fun _ => mono_mpure _
  all_goals exact mono_bind (mono_skip_bundle _) fun _ => mono_mpure _

theorem mono_afterRange {m : M (Nat × Value)} (hm : Mono m) : Mono (afterRange m) := by
  unfold afterRange
  refine mono_bind hm ?_
  rintro ⟨pos, ret⟩
  exact mono_bind (mono_skip_bundle _) fun _ => mono_mpure _

theorem mono_dispatch {stepF : StepFn} (hstep : ∀ d p r, Mono (stepF d p r))
    (data : List Nat) (code pos : Nat) :
    Mono (dispatch stepF data code pos) :=
  mono_ite (mono_afterFixed (mono_mpure _) hstep data) <|
  mono_ite (mono_bundled_string hstep data _) <|
  mono_ite (mono_afterFixed (mono_mpure _) hstep data) <|
  mono_ite (mono_afterFixed (mono_mpure _) hstep data) <|
  mono_ite (mono_afterFixed (mono_binHandler _ _ _ _) hstep data) <|
  mono_ite (mono_afterFixed (mono_binHandler _ _ _ _) hstep data) <|
  mono_ite (mono_afterFixed (mono_binHandler _ _ _ _) hstep data) <|
  mono_ite (mono_afterFixed (mono_extHandler hstep _ _ _ _) hstep data) <|
  mono_ite (mono_afterFixed (mono_extHandler hstep _ _ _ _) hstep data) <|
  mono_ite (mono_afterFixed (mono_extHandler hstep _ _ _ _) hstep data) <|
  mono_ite (mono_afterFixed (mono_floatHandler _ _ _) hstep data) <|
  mono_ite (mono_afterFixed (mono_floatHandler _ _ _) hstep data) <|
  mono_ite (mono_afterFixed (mono_intHandler _ _ _ _) hstep data) <|
  mono_ite (mono_afterFixed (mono_intHandler _ _ _ _) hstep data) <|
  mono_ite (mono_afterFixed (mono_intHandler _ _ _ _) hstep data) <|
  mono_ite (mono_afterFixed (mono_intHandler _ _ _ _) hstep data) <|
  mono_ite (mono_afterFixed (mono_intHandler _ _ _ _) hstep data) <|
  mono_ite (mono_afterFixed (mono_intHandler _ _ _ _) hstep data) <|
  mono_ite (mono_afterFixed (mono_intHandler _ _ _ _) hstep data) <|
  mono_ite (mono_afterFixed (mono_intHandler _ _ _ _) hstep data) <|
  mono_ite (mono_afterFixed (mono_fixextHandler hstep _ _ _) hstep data) <|
  mono_ite (mono_afterFixed (mono_fixextHandler hstep _ _ _) hstep data) <|
  mono_ite (mono_afterFixed (mono_fixextHandler hstep _ _ _) hstep data) <|
  mono_ite (mono_afterFixed (mono_fixextHandler hstep _ _ _) hstep data) <|
  mono_ite (mono_afterFixed (mono_fixextHandler hstep _ _ _) hstep data) <|
  mono_ite (mono_afterFixed (mono_strHandler _ _ _ _) hstep data) <|
  mono_ite (mono_afterFixed (mono_strHandler _ _ _ _) hstep data) <|
  mono_ite (mono_afterFixed (mono_strHandler _ _ _ _) hstep data) <|
  mono_ite (mono_afterFixed (mono_arrayHandler hstep _ _ _ _) hstep data) <|
  mono_ite (mono_afterFixed (mono_arrayHandler hstep _ _ _ _) hstep data) <|
  mono_ite (mono_afterFixed (mono_mapHandler hstep _ _ _ _) hstep data) <|
  mono_ite (mono_afterFixed (mono_mapHandler hstep _ _ _ _) hstep data) <|
  mono_ite (mono_afterRange (mono_positive_fixint _ _)) <|
  mono_ite (mono_afterRange (mono_recordRange hstep _ _ _)) <|
  mono_ite (mono_afterRange (mono_fixmapHandler hstep _ _ _)) <|
  mono_ite (mono_afterRange (mono_fixarrayHandler hstep _ _ _)) <|
  mono_ite (mono_afterRange (mono_fixstrHandler _ _ _)) <|
  mono_ite (mono_afterRange (mono_negative_fixint _ _)) <|
  mono_mthrow _

theorem mono_stepBody {stepF : StepFn} (hstep : ∀ d p r, Mono (stepF d p r))
    (data : List Nat) (pos0 : Nat) (restrict : Option Restrict) :
    Mono (stepBody stepF data pos0 restrict) := by
  unfold stepBody
  refine mono_bind (mono_mliftE _) fun code => ?_
  exact mono_ite (mono_mthrow _) (mono_dispatch hstep data code _)

theorem mono_step : ∀ (fuel : Nat) (data : List Nat) (pos : Nat) (r : Option Restrict),
    Mono (step fuel data pos r) := by
  intro fuel
  induction fuel with
  | zero => intro data pos r; exact mono_mthrow _
  | succ f ih => intro data pos r; exact mono_stepBody ih data pos r

theorem mono_unpackLoop : ∀ (fuel : Nat) (data : List Nat) (length : Nat)
    (multiple allow_remaining : Bool) (pos : Nat) (acc : List Value),
    Mono (unpackLoop fuel data length multiple allow_remaining pos acc) := by
  intro fuel
  induction fuel with
  | zero =>
    intro data length m a pos acc
    unfold unpackLoop
    refine mono_ite ?_ (mono_mpure _)
    exact mono_mthrow _
  | succ f ih =>
    intro data length m a pos acc
    unfold unpackLoop
    refine mono_ite ?_ (mono_mpure _)
    refine mono_bind (mono_step f data pos none) ?_
    rintro ⟨pos1, ret⟩
    exact mono_ite (mono_ite (mono_mthrow _) (mono_mpure _))
      (ih data length m a pos1 (acc ++ [ret]))

theorem mono_unpack (fuel : Nat) (data : List Nat) (multiple allow_remaining : Bool) :
    Mono (Unpacker.unpack fuel data multiple allow_remaining) :=
  mono_unpackLoop fuel data data.length multiple allow_remaining 0 []

theorem readUIntBE_one_of_get {data : List Nat} {i b : Nat} (h : data.get? i = some b) :
    readUIntBE 1 data i = .ok b := by
  have hlt : i < data.length := by
    by_contra hge
    rw [List.get?_eq_none.mpr (by omega)] at h
    exact Option.noConfusion h
  unfold readUIntBE
  rw [if_pos (by omega)]
  unfold pySlice
  rw [List.drop_eq_getElem_cons hlt]
  have hb : data[i] = b := by
    have := List.get?_eq_get (h := hlt)
    rw [this] at h
    exact (Option.some.injEq _ _).mp h
  rw [show i + 1 - i = 1 from by omega]
  rw [List.take_succ_cons, List.take_zero, hb, bytesToNat_singleton]

/-! The claims. -/

/-- The bytes of a partial decode that installs a bundled-strings pool: an ext8
installer (type 98, declared length 4, payload the uint32 6), a fixint decoded
by the SKIP chain, one byte never decoded, then the two pooled fixstr values
"a" and "b" occupying positions 9 to 13. -/
def bundleData : List Nat :=
  [0xC7, 0x04, 0x62, 0x00, 0x00, 0x00, 0x06, 0x00, 0xFF, 0xA1, 0x61, 0xA1, 0x62]

/-- The decoder state reached after one step on bundleData: an active populated
pool with bounds 9..13 and both cursors at zero. -/
def bundleState1 : UState :=
  { Unpacker.init true true with
    bundle := some { string_offset := none, strings := ([97], [98]),
                     positions := (0, 0), bounds := some (9, 13) } }

/-- What export_state returns on bundleState1: the copy of the bundle has lost
its begin/end bounds. -/
def bundleSnapshot : Snapshot :=
  { bundle := some { string_offset := none, strings := ([97], [98]),
                     positions := (0, 0), bounds := none },
    records := [] }

/-- The state after restore_state of bundleSnapshot over the moved-on decoder. -/
def bundleStateRestored : UState :=
  { Unpacker.init true true with
    bundle := some { string_offset := none, strings := ([97], [98]),
                     positions := (0, 0), bounds := none },
    records := some [] }

/-- C1: the claim says unpack(bytes([0xC0]), multiple=false, allow_remaining=false)
returns Nil, and that for lead bytes 0xC0/0xC2/0xC3 step returns the position
just after the lead byte together with the constant.  The code's handlers for
these three codes return the constant position 0 instead of the position after
the lead byte, so step reports position 0; unpack then sees an unconsumed byte
and raises the trailing-data error.  This theorem evaluates the embedding at
those failing inputs, witnessing the divergence between the claim (the clear
intent, and the spec scenario C0 -> Nil) and the code. -/
theorem c1_nil_false_true_position :
    step 2 [0xC0] 0 none (Unpacker.init true true)
      = (Unpacker.init true true, .ok (0, .nil))
    ∧ step 2 [0xC2] 0 none (Unpacker.init true true)
      = (Unpacker.init true true, .ok (0, .bool false))
    ∧ step 2 [0xC3] 0 none (Unpacker.init true true)
      = (Unpacker.init true true, .ok (0, .bool true))
    ∧ Unpacker.unpack 2 [0xC0] false false (Unpacker.init true true)
      = (Unpacker.init true true, .error .trailingData) :=
  ⟨rfl, rfl, rfl, rfl⟩

/-- C2 counterexample: the claim says the default registry of a fresh decoder
maps seven codes including 66 (bigint) and 101 (error); neither is registered
by Unpacker.__init__. -/
theorem c2_counterexample :
    dictGet (Unpacker.init true true).extensions 66 = none
    ∧ dictGet (Unpacker.init true true).extensions 101 = none :=
  ⟨rfl, rfl⟩

/-- C2 (amended): a freshly constructed decoder with bundled strings enabled
has exactly the default registry mapping the five codes -1 (timestamp),
0 (undefined), 114 (record), 115 (set) and 98 (bundled strings) to their
handlers before any call to register_extensions; the bigint (66) and error
(101) handlers exist but are not registered by default. -/
theorem c2_default_registry :
    (Unpacker.init true true).extensions =
      [(-1, .timestamp), (0, .undefined), (114, .record), (115, .set), (98, .bundledStrings)]
    ∧ Ext.bigint.EXT_TYPE = 66 ∧ Ext.error.EXT_TYPE = 101 :=
  ⟨rfl, rfl, rfl⟩

/-- C3: the claim says export_state returns a deep copy of the bundle that
preserves strings, cursors and the begin/end payload bounds, and that after
restore_state the same step calls replay identically.  BundledStrings.copy
does not carry begin/end over, so the snapshot's bundle has no bounds, and the
replayed step raises an AttributeError in skip_bundle where the original run
returned a value.  The conjuncts below exhibit this on a state reached by a
real partial decode. -/
theorem c3_export_restore_loses_bundle_bounds :
    step 2 bundleData 0 none (Unpacker.init true true) = (bundleState1, .ok (8, .int 0))
    ∧ step 1 bundleData 8 none bundleState1
      = ({ bundleState1 with bundle := none }, .ok (13, .int (-1)))
    ∧ export_state bundleState1 = .ok bundleSnapshot
    ∧ bundleSnapshot.bundle.map BundledStrings.bounds = some none
    ∧ restore_state { bundleState1 with bundle := none } bundleSnapshot false
      = bundleStateRestored
    ∧ step 1 bundleData 8 none bundleStateRestored
      = (bundleStateRestored, .error .attrError) :=
  ⟨rfl, rfl, rfl, rfl, rfl, rfl⟩

/-- Modelled from the claim's wording: the 4-byte timestamp payload holds the
big-endian seconds. -/
def tsPayload4 (s : Nat) : List Nat := natToBytesBE 4 s

/-- Modelled from the claim's wording: the 8-byte timestamp payload carries
30-bit nanoseconds above 34-bit seconds, big-endian. -/
def tsPayload8 (ns s : Nat) : List Nat := natToBytesBE 8 (ns * 2 ^ 34 + s)

/-- Modelled from the claim's wording: the 12-byte timestamp payload carries
32-bit nanoseconds then 64-bit seconds, big-endian. -/
def tsPayload12 (ns s : Nat) : List Nat := natToBytesBE 4 ns ++ natToBytesBE 8 s

/-- C4: an instant encodable in all three timestamp forms has whole seconds
below 2^32 and zero nanoseconds (the 4-byte form carries no subsecond field),
and its 4-, 8- and 12-byte payloads decode to equal timestamp values; any
payload whose declared length is outside {4, 8, 12} raises the
bad-ext-payload (invalid timestamp length) error. -/
theorem c4_timestamp_forms (s : Nat) (h : s < 2 ^ 32) :
    TimestampExtension.unpack (tsPayload4 s) 0 4 = .ok (.datetime s 0)
    ∧ TimestampExtension.unpack (tsPayload8 0 s) 0 8 = .ok (.datetime s 0)
    ∧ TimestampExtension.unpack (tsPayload12 0 s) 0 12 = .ok (.datetime s 0)
    ∧ ∀ (data : List Nat) (pos L : Nat), L ≠ 4 → L ≠ 8 → L ≠ 12 →
        TimestampExtension.unpack data pos L = .error .badTimestampLen := by
  have h32 : s < 4294967296 := by
    have h2 : (2 : Nat) ^ 32 = 4294967296 := by norm_num
    omega
  have hr4 : bytesToNat (pySlice (tsPayload4 s) 0 (0 + 4)) = s := by
    unfold tsPayload4
    rw [pySlice_full _ _ (by rw [length_natToBytesBE])]
    exact bytesToNat_natToBytesBE 4 s (by norm_num; omega)
  have hr8 : bytesToNat (pySlice (tsPayload8 0 s) 0 (0 + 8)) = s := by
    unfold tsPayload8
    rw [pySlice_full _ _ (by rw [length_natToBytesBE])]
    rw [bytesToNat_natToBytesBE 8 _ (by norm_num; omega)]
    omega
  have hr12 : bytesToNat (pySlice (tsPayload12 0 s) 0 (0 + 12)) = s := by
    unfold tsPayload12
    rw [pySlice_full _ _ (by simp [List.length_append, length_natToBytesBE])]
    rw [bytesToNat_append, bytesToNat_natToBytesBE 4 0 (by norm_num),
      bytesToNat_natToBytesBE 8 s (by norm_num; omega), length_natToBytesBE]
    omega
  refine ⟨?_, ?_, ?_, ?_⟩
  · unfold TimestampExtension.unpack
    rw [if_pos rfl, hr4]
    unfold fromtimestamp
    rw [if_pos (by constructor <;> omega)]
  · unfold TimestampExtension.unpack
    rw [if_neg (by norm_num), if_pos rfl]
    dsimp only
    rw [hr8, Nat.mod_eq_of_lt (by norm_num; omega)]
    unfold fromtimestamp
    rw [if_pos (by constructor <;> omega)]
    show replaceMicrosecond (Value.datetime (s : Int) 0) (s / 2 ^ 34 / 1000) = _
    rw [Nat.div_eq_of_lt (by norm_num; omega)]
    unfold replaceMicrosecond
    norm_num
  · unfold TimestampExtension.unpack
    rw [if_neg (by norm_num), if_neg (by norm_num), if_pos rfl]
    dsimp only
    rw [hr12, Nat.mod_eq_of_lt (by norm_num; omega)]
    unfold fromtimestamp
    rw [if_pos (by constructor <;> omega)]
    show replaceMicrosecond (Value.datetime (s : Int) 0) (s / 2 ^ 64 * 1000) = _
    rw [Nat.div_eq_of_lt (by norm_num; omega)]
    unfold replaceMicrosecond
    norm_num
  · intro data pos L h4 h8 h12
    unfold TimestampExtension.unpack
    rw [if_neg h4, if_neg h8, if_neg h12]

/-- C4 witness: the instant at one second past the epoch, and a 3-byte payload. -/
theorem c4_timestamp_forms_witness :
    (1 : Nat) < 2 ^ 32
    ∧ TimestampExtension.unpack (tsPayload4 1) 0 4 = .ok (.datetime 1 0)
    ∧ TimestampExtension.unpack (tsPayload8 0 1) 0 8 = .ok (.datetime 1 0)
    ∧ TimestampExtension.unpack (tsPayload12 0 1) 0 12 = .ok (.datetime 1 0)
    ∧ TimestampExtension.unpack [1, 2, 3] 0 3 = .error .badTimestampLen := by
  have h := c4_timestamp_forms 1 (by norm_num)
  exact ⟨by norm_num, h.1, h.2.1, h.2.2.1,
    h.2.2.2 [1, 2, 3] 0 3 (by norm_num) (by norm_num) (by norm_num)⟩

/-- The defining equation of dispatch, stated once so proofs can rewrite with
it without re-eliminating the definition. -/
theorem dispatch_def (stepF : StepFn) (data : List Nat) (code pos : Nat) :
    dispatch stepF data code pos =
      if code = 0xC0 then afterFixed stepF data (mpure (0, Value.nil))
      else if code = 0xC1 then bundled_string stepF data pos
      else if code = 0xC2 then afterFixed stepF data (mpure (0, Value.bool false))
      else if code = 0xC3 then afterFixed stepF data (mpure (0, Value.bool true))
      else if code = 0xC4 then afterFixed stepF data (binHandler data pos 1 1)
      else if code = 0xC5 then afterFixed stepF data (binHandler data pos 2 2)
      else if code = 0xC6 then afterFixed stepF data (binHandler data pos 4 4)
      else if code = 0xC7 then afterFixed stepF data (extHandler stepF data pos 1 1)
      else if code = 0xC8 then afterFixed stepF data (extHandler stepF data pos 2 2)
      else if code = 0xC9 then afterFixed stepF data (extHandler stepF data pos 4 4)
      else if code = 0xCA then afterFixed stepF data (floatHandler data pos 4)
      else if code = 0xCB then afterFixed stepF data (floatHandler data pos 8)
      else if code = 0xCC then afterFixed stepF data (intHandler data pos 1 false)
      else if code = 0xCD then afterFixed stepF data (intHandler data pos 2 false)
      else if code = 0xCE then afterFixed stepF data (intHandler data pos 4 false)
      else if code = 0xCF then afterFixed stepF data (intHandler data pos 8 false)
      else if code = 0xD0 then afterFixed stepF data (intHandler data pos 1 true)
      else if code = 0xD1 then afterFixed stepF data (intHandler data pos 2 true)
      else if code = 0xD2 then afterFixed stepF data (intHandler data pos 4 true)
      else if code = 0xD3 then afterFixed stepF data (intHandler data pos 8 true)
      else if code = 0xD4 then afterFixed stepF data (fixextHandler stepF data pos 1)
      else if code = 0xD5 then afterFixed stepF data (fixextHandler stepF data pos 2)
      else if code = 0xD6 then afterFixed stepF data (fixextHandler stepF data pos 4)
      else if code = 0xD7 then afterFixed stepF data (fixextHandler stepF data pos 8)
      else if code = 0xD8 then afterFixed stepF data (fixextHandler stepF data pos 16)
      else if code = 0xD9 then afterFixed stepF data (strHandler data pos 1 1)
      else if code = 0xDA then afterFixed stepF data (strHandler data pos 2 2)
      else if code = 0xDB then afterFixed stepF data (strHandler data pos 4 4)
      else if code = 0xDC then afterFixed stepF data (arrayHandler stepF data pos 2 2)
      else if code = 0xDD then afterFixed stepF data (arrayHandler stepF data pos 4 4)
      else if code = 0xDE then afterFixed stepF data (mapHandler stepF data pos 2 2)
      else if code = 0xDF then afterFixed stepF data (mapHandler stepF data pos 4 4)
      else if code ≤ 0x3F then afterRange (positive_fixint code pos)
      else if code ≤ 0x7F then afterRange (recordRange stepF data code pos)
      else if code ≤ 0x8F then afterRange (fixmapHandler stepF data code pos)
      else if code ≤ 0x9F then afterRange (fixarrayHandler stepF data code pos)
      else if code ≤ 0xBF then afterRange (fixstrHandler data code pos)
      else if 0xE0 ≤ code ∧ code ≤ 0xFF then afterRange (negative_fixint code pos)
      else mthrow .invalidCode := rfl

/-- The populated pool used in the C6 witness. -/
def c6Pool : BundledStrings :=
  { string_offset := none, strings := ([10, 11], [20, 21]), positions := (0, 0),
    bounds := some (50, 60) }

/-- c6Pool after consuming one character from the right string. -/
def c6PoolAdv : BundledStrings :=
  { string_offset := none, strings := ([10, 11], [20, 21]), positions := (0, 1),
    bounds := some (50, 60) }

/-- The decoder state used in the C6 witness: c6Pool is active. -/
def c6State : UState :=
  { Unpacker.init true true with bundle := some c6Pool }

/-- C6: the 0xC1 bundled-string reference.  Dispatch sends lead byte 0xC1 to
bundled_string on the following position; with no active bundle it fails; a
populated pool consumes n ≥ 0 characters from the right string at the right
cursor and n < 0 characters from the left string at the left cursor, failing
when the cursor already sits at the string's end or the slice would run past
it; and the full decode returns the slice as a str with the pool's cursor
advanced on the decoder. -/
theorem c6_bundled_reference :
    (∀ (f : Nat) (data : List Nat) (pos : Nat) (s : UState),
        s.bundle = none →
        bundled_string (step f) data pos s = (s, .error .noBundledStrings))
    ∧ (∀ (f : Nat) (data : List Nat) (pos : Nat) (s : UState),
        data.get? pos = some 0xC1 →
        step (f + 1) data pos none s = bundled_string (step f) data (pos + 1) s)
    ∧ (∀ (b : BundledStrings) (n : Int), b.string_offset = none → 0 ≤ n →
        b.consume_string n false =
          (if b.strings.2.length = b.positions.2 then .error .bundledExhausted
           else if b.strings.2.length < b.positions.2 + n.natAbs then .error .stringOOB
           else .ok ((b.strings.2.drop b.positions.2).take n.natAbs,
             { b with positions := (b.positions.1, b.positions.2 + n.natAbs) })))
    ∧ (∀ (b : BundledStrings) (n : Int), b.string_offset = none → n < 0 →
        b.consume_string n false =
          (if b.strings.1.length = b.positions.1 then .error .bundledExhausted
           else if b.strings.1.length < b.positions.1 + n.natAbs then .error .stringOOB
           else .ok ((b.strings.1.drop b.positions.1).take n.natAbs,
             { b with positions := (b.positions.1 + n.natAbs, b.positions.2) })))
    ∧ (∀ (f : Nat) (data : List Nat) (pos : Nat) (s s1 : UState)
        (b0 b b1 : BundledStrings) (p1 : Nat) (n : Int) (slice : PyStr),
        s.bundle = some b0 →
        step f data pos (some INT) s = (s1, .ok (p1, .int n)) →
        s1.bundle = some b →
        b.consume_string n false = .ok (slice, b1) →
        bundled_string (step f) data pos s
          = ({ s1 with bundle := some b1 }, .ok (p1, .str slice))) := by
  refine ⟨?_, ?_, ?_, ?_, ?_⟩
  · intro f data pos s hb
    unfold bundled_string
    rw [bind_apply_ok (getState_apply s)]
    dsimp only
    rw [hb]
    rfl
  · intro f data pos s h
    show stepBody (step f) data pos none s = _
    unfold stepBody
    rw [bind_apply_ok (show mliftE (readUIntBE 1 data pos) s = (s, .ok 0xC1)
      by rw [readUIntBE_one_of_get h]; rfl)]
    rfl
  · intro b n hpop hn
    unfold BundledStrings.consume_string
    rw [hpop]
    dsimp only
    rw [decide_eq_true hn]
    simp only [eq_self_iff_true, if_true, Bool.false_eq_true, if_false, Nat.add_sub_cancel_left]
  · intro b n hpop hn
    unfold BundledStrings.consume_string
    rw [hpop]
    dsimp only
    rw [decide_eq_false (by omega)]
    simp only [Bool.false_eq_true, if_false, Nat.add_sub_cancel_left]
  · intro f data pos s s1 b0 b b1 p1 n slice hb0 hstep hb1 hcons
    unfold bundled_string
    rw [bind_apply_ok (getState_apply s)]
    dsimp only
    rw [hb0]
    simp only []
    rw [bind_apply_ok hstep]
    simp only []
    rw [bind_apply_ok (getState_apply s1)]
    try dsimp only
    rw [hb1]
    simp only []
    rw [hcons]
    rfl

/-- C6 witness: with c6Pool active, 0xC1 dispatches to bundled_string; length 1
consumes "20" from the right string advancing the right cursor, length -2
consumes the whole left string; the exhausted and out-of-bounds errors fire;
and the no-bundle error fires on a fresh decoder. -/
theorem c6_bundled_reference_witness :
    bundled_string (step 1) [] 0 (Unpacker.init true true)
      = (Unpacker.init true true, .error .noBundledStrings)
    ∧ step 2 [0xC1, 0x01] 0 none c6State = bundled_string (step 1) [0xC1, 0x01] 1 c6State
    ∧ c6Pool.consume_string 1 false = .ok ([20], c6PoolAdv)
    ∧ c6Pool.consume_string (-2) false = .ok ([10, 11], { c6Pool with positions := (2, 0) })
    ∧ c6Pool.consume_string 3 false = .error .stringOOB
    ∧ ({ c6Pool with positions := (2, 2) } : BundledStrings).consume_string 1 false
      = .error .bundledExhausted
    ∧ bundled_string (step 1) [0xC1, 0x01] 1 c6State
      = ({ c6State with bundle := some c6PoolAdv }, .ok (2, .str [20])) := by
  refine ⟨?_, ?_, ?_, ?_, ?_, ?_, ?_⟩
  · exact c6_bundled_reference.1 1 [] 0 (Unpacker.init true true) rfl
  · exact c6_bundled_reference.2.1 1 [0xC1, 0x01] 0 c6State rfl
  · rw [c6_bundled_reference.2.2.1 c6Pool 1 rfl (by decide)]
    rfl
  · rw [c6_bundled_reference.2.2.2.1 c6Pool (-2) rfl (by decide)]
    rfl
  · rw [c6_bundled_reference.2.2.1 c6Pool 3 rfl (by decide)]
    rfl
  · rw [c6_bundled_reference.2.2.1 { c6Pool with positions := (2, 2) } 1 rfl (by decide)]
    rfl
  · exact c6_bundled_reference.2.2.2.2 1 [0xC1, 0x01] 1 c6State c6State c6Pool c6Pool
      c6PoolAdv 2 1 [20] rfl rfl rfl rfl

/-- The decoder state used in the C7 witness: an active populated pool whose
payload spans positions 2 to 9. -/
def hookState : UState :=
  { Unpacker.init true true with
    bundle := some { string_offset := none, strings := ([5], [6]),
                     positions := (0, 0), bounds := some (2, 9) } }

set_option maxHeartbeats 1600000 in
/-- C7: the skip_bundle hook runs after every fixed-table and range-table
handler.  skip_bundle itself jumps to the bundle's end and clears the bundle
exactly when an active bundle begins at pos, else changes nothing; step on any
lead byte is dispatch on that byte; dispatch on every code below 0x100 other
than 0xC1 is some handler wrapped in afterFixed or afterRange; and both
wrappers feed the handler's final position through skip_bundle (after chasing
one more decode when the handler yields SKIP). -/
theorem c7_skip_bundle_hook :
    (∀ (s : UState) (pos : Nat), s.bundle = none → skip_bundle pos s = (s, .ok pos))
    ∧ (∀ (s : UState) (bs : BundledStrings) (bg en pos : Nat),
        s.bundle = some bs → bs.bounds = some (bg, en) →
        skip_bundle pos s =
          if bg = pos then ({ s with bundle := none }, .ok en) else (s, .ok pos))
    ∧ (∀ (f : Nat) (data : List Nat) (pos code : Nat) (s : UState),
        data.get? pos = some code →
        step (f + 1) data pos none s = dispatch (step f) data code (pos + 1) s)
    ∧ (∀ (stepF : StepFn) (data : List Nat) (code pos : Nat),
        code < 0x100 → code ≠ 0xC1 →
        (∃ m, dispatch stepF data code pos = afterFixed stepF data m)
        ∨ (∃ m, dispatch stepF data code pos = afterRange m))
    ∧ (∀ (stepF : StepFn) (data : List Nat) (m : M (Nat × Value)) (s s1 : UState)
        (pos : Nat) (ret : Value),
        m s = (s1, .ok (pos, ret)) → ret ≠ Value.skip →
        afterFixed stepF data m s
          = (skip_bundle pos >>= fun pos2 => mpure (pos2, ret)) s1)
    ∧ (∀ (stepF : StepFn) (data : List Nat) (m : M (Nat × Value)) (s s1 : UState)
        (pos : Nat),
        m s = (s1, .ok (pos, Value.skip)) →
        afterFixed stepF data m s
          = (do
              let (pos1, ret1) ← stepF data pos none
              let pos2 ← skip_bundle pos1
              mpure (pos2, ret1) : M (Nat × Value)) s1)
    ∧ (∀ (m : M (Nat × Value)) (s s1 : UState) (pos : Nat) (ret : Value),
        m s = (s1, .ok (pos, ret)) →
        afterRange m s = (skip_bundle pos >>= fun pos2 => mpure (pos2, ret)) s1) := by
  refine ⟨?_, ?_, ?_, ?_, ?_, ?_, ?_⟩
  · intro s pos h
    unfold skip_bundle
    rw [h]
  · intro s bs bg en pos h1 h2
    unfold skip_bundle
    rw [h1]
    try simp only []
    rw [h2]
  · intro f data pos code s h
    show stepBody (step f) data pos none s = _
    unfold stepBody
    rw [bind_apply_ok (show mliftE (readUIntBE 1 data pos) s = (s, .ok code)
      by rw [readUIntBE_one_of_get h]; rfl)]
    rfl
  · intro stepF data code pos hlt hne
    interval_cases code
    all_goals first
      | exact absurd rfl hne
      | exact Or.inl ⟨_, rfl⟩
      | exact Or.inr ⟨_, rfl⟩
  · intro stepF data m s s1 pos ret hm hns
    unfold afterFixed
    rw [bind_apply_ok hm]
    cases ret <;> first | exact absurd rfl hns | rfl
  · intro stepF data m s s1 pos hm
    unfold afterFixed
    rw [bind_apply_ok hm]
  · intro m s s1 pos ret hm
    unfold afterRange
    rw [bind_apply_ok hm]

/-- C7 witness: skip_bundle is inert without a bundle and on a mismatched
begin, and jumps/clears on a match; step on lead byte 0xCC is its dispatch;
dispatch on 0xCC routes through a wrapper; afterFixed pipes a non-SKIP result
(position 5, mismatching begin 2) through skip_bundle unchanged, chases a SKIP
result into one more decode, and afterRange on final position 2 (the pool's
begin) jumps to 9 and clears the bundle. -/
theorem c7_skip_bundle_hook_witness :
    skip_bundle 0 (Unpacker.init true true) = (Unpacker.init true true, .ok 0)
    ∧ skip_bundle 2 hookState = ({ hookState with bundle := none }, .ok 9)
    ∧ step 1 [0xCC, 7] 0 none hookState = dispatch (step 0) [0xCC, 7] 0xCC 1 hookState
    ∧ ((∃ m, dispatch (step 0) [0xCC, 7] 0xCC 1 = afterFixed (step 0) [0xCC, 7] m)
       ∨ (∃ m, dispatch (step 0) [0xCC, 7] 0xCC 1 = afterRange m))
    ∧ afterFixed (step 1) [0xCC, 7] (mpure ((5 : Nat), Value.int 7)) hookState
      = (hookState, .ok (5, .int 7))
    ∧ afterFixed (step 1) [0x07] (mpure ((0 : Nat), Value.skip)) (Unpacker.init true true)
      = (Unpacker.init true true, .ok (1, .int 7))
    ∧ afterRange (mpure ((2 : Nat), Value.int 5)) hookState
      = ({ hookState with bundle := none }, .ok (9, .int 5)) := by
  refine ⟨?_, ?_, ?_, ?_, ?_, ?_, ?_⟩
  · exact c7_skip_bundle_hook.1 (Unpacker.init true true) 0 rfl
  · rw [c7_skip_bundle_hook.2.1 hookState
      { string_offset := none, strings := ([5], [6]), positions := (0, 0),
        bounds := some (2, 9) } 2 9 2 rfl rfl]
    rfl
  · exact c7_skip_bundle_hook.2.2.1 0 [0xCC, 7] 0 0xCC hookState rfl
  · exact c7_skip_bundle_hook.2.2.2.1 (step 0) [0xCC, 7] 0xCC 1 (by decide) (by decide)
  · rw [c7_skip_bundle_hook.2.2.2.2.1 (step 1) [0xCC, 7] (mpure ((5 : Nat), Value.int 7))
      hookState hookState 5 (Value.int 7) rfl (fun h => Value.noConfusion h)]
    rfl
  · rw [c7_skip_bundle_hook.2.2.2.2.2.1 (step 1) [0x07] (mpure ((0 : Nat), Value.skip))
      (Unpacker.init true true) (Unpacker.init true true) 0 rfl]
    rfl
  · rw [c7_skip_bundle_hook.2.2.2.2.2.2 (mpure ((2 : Nat), Value.int 5))
      hookState hookState 2 (Value.int 5) rfl]
    rfl

/-- The pool object BundledStringsExtension.post_unpack installs: offset
cleared, strings populated, cursors reset, bounds set. -/
def poolInstalled (l r : PyStr) (beg en : Nat) : BundledStrings :=
  { string_offset := none, strings := (l, r), positions := (0, 0), bounds := some (beg, en) }

/-- C5: the extension-98 installer.  unpack reads one big-endian uint32 U from
the payload and yields a pool object with offset U - L; post_unpack computes
begin = pos + (U - L), decodes two STR-restricted values from begin, installs
the populated pool (string_offset cleared, both cursors 0, bounds begin/end)
on the decoder, and returns (pos, SKIP) without advancing past the strings;
and the fixed-code dispatch tail reacts to SKIP by decoding the next value at
that same position. -/
theorem c5_bundled_strings_installer :
    (∀ (data : List Nat) (p L U : Nat), readUIntBE 4 data p = .ok U →
        BundledStringsExtension.unpack data p L
          = .ok (.bsObj (BundledStrings.init (some ((U : Int) - (L : Int))))))
    ∧ (∀ (f : Nat) (data : List Nat) (pos U L : Nat) (s sa sb : UState)
        (o en : Nat) (l r : PyStr),
        ¬ ((pos : Int) + ((U : Int) - (L : Int)) < 0) →
        step f data ((pos : Int) + ((U : Int) - (L : Int))).toNat (some STR) s
          = (sa, .ok (o, .str l)) →
        step f data o (some STR) sa = (sb, .ok (en, .str r)) →
        BundledStringsExtension.post_unpack (step f) data pos
            (.bsObj (BundledStrings.init (some ((U : Int) - (L : Int))))) s
          = ({ sb with bundle := some (poolInstalled l r (((pos : Int) + ((U : Int) - (L : Int))).toNat) en) },
             .ok (pos, .skip)))
    ∧ (∀ (f : Nat) (data : List Nat) (m : M (Nat × Value)) (s s1 : UState) (pos : Nat),
        m s = (s1, .ok (pos, .skip)) →
        afterFixed (step f) data m s
          = (do
              let (pos1, ret1) ← step f data pos none
              let pos2 ← skip_bundle pos1
              mpure (pos2, ret1) : M (Nat × Value)) s1) := by
  refine ⟨?_, ?_, ?_⟩
  · intro data p L U hU
    unfold BundledStringsExtension.unpack
    rw [hU]
  · intro f data pos U L s sa sb o en l r hnn h1 h2
    unfold BundledStringsExtension.post_unpack
    simp only [BundledStrings.init]
    rw [if_neg hnn]
    rw [bind_apply_ok h1]
    simp only []
    rw [bind_apply_ok h2]
    simp only []
    rfl
  · intro f data m s s1 pos hm
    unfold afterFixed
    rw [bind_apply_ok hm]

/-- C5 witness: the 13-byte buffer C7 04 62 00 00 00 06 00 FF A1 61 A1 62.  The
ext-8 payload at 3 of declared length 4 holds U = 6, so begin = 7 + 2 = 9;
the two strings are "a" and "b" ending at 13; the pool is installed with
bounds (9, 13) and the position stays at 7, where the dispatcher then decodes
the fixint 0. -/
theorem c5_bundled_strings_installer_witness :
    BundledStringsExtension.unpack bundleData 3 4
      = .ok (.bsObj (BundledStrings.init (some ((6 : Int) - (4 : Int)))))
    ∧ BundledStringsExtension.post_unpack (step 1) bundleData 7
        (.bsObj (BundledStrings.init (some ((6 : Int) - (4 : Int)))))
        (Unpacker.init true true)
      = ({ Unpacker.init true true with bundle := some (poolInstalled [97] [98] 9 13) },
         .ok (7, .skip))
    ∧ afterFixed (step 1) bundleData (mpure ((7 : Nat), Value.skip)) (Unpacker.init true true)
      = (Unpacker.init true true, .ok (8, .int 0)) := by
  refine ⟨?_, ?_, ?_⟩
  · exact c5_bundled_strings_installer.1 bundleData 3 4 6 rfl
  · exact c5_bundled_strings_installer.2.1 1 bundleData 7 6 4
      (Unpacker.init true true) (Unpacker.init true true) (Unpacker.init true true)
      11 13 [97] [98] (by decide) rfl rfl
  · rw [c5_bundled_strings_installer.2.2 1 bundleData (mpure ((7 : Nat), Value.skip))
      (Unpacker.init true true) (Unpacker.init true true) 7 rfl]
    rfl

/-- The decoder state used in the C8 witness: records enabled, id 0 already
cached with the single key "k". -/
def recState : UState :=
  { Unpacker.init true true with records := some [(0, [[107]])] }

/-- C8: the records cache is monotonic.  Every step and every unpack preserves
each installed entry unchanged; post_unpack on a cached id reuses exactly the
cached key list (decoding only the values); and on an uncached id it decodes
one ARRAY-restricted key list, installs it under the id (where it is then
found), and decodes the values against it. -/
theorem c8_records_monotone :
    (∀ (fuel : Nat) (data : List Nat) (pos : Nat) (restrict : Option Restrict)
        (s : UState) (id : Nat) (ks : List PyStr),
        recLookup s id = some ks →
        recLookup ((step fuel data pos restrict s).1) id = some ks)
    ∧ (∀ (fuel : Nat) (data : List Nat) (multiple allow_remaining : Bool)
        (s : UState) (id : Nat) (ks : List PyStr),
        recLookup s id = some ks →
        recLookup ((Unpacker.unpack fuel data multiple allow_remaining s).1) id = some ks)
    ∧ (∀ (f : Nat) (data : List Nat) (pos : Nat) (s : UState) (id : Nat)
        (ks : List PyStr) (recs : List (Nat × List PyStr)),
        s.records = some recs → dictGet recs id = some ks →
        RecordExtension.post_unpack (step f) data pos id s
          = (do
              let (p1, kvs) ← recordLoop (step f) data ks pos []
              mpure (p1, Value.map kvs) : M (Nat × Value)) s)
    ∧ (∀ (f : Nat) (data : List Nat) (pos : Nat) (s : UState) (id : Nat)
        (s1 : UState) (p1 : Nat) (keysV : Value) (keys : List PyStr)
        (recs recs1 : List (Nat × List PyStr)),
        s.records = some recs → dictGet recs id = none →
        step f data pos (some ARRAY) s = (s1, .ok (p1, keysV)) →
        asRecordKeys keysV = some keys →
        s1.records = some recs1 →
        (RecordExtension.post_unpack (step f) data pos id s
          = (do
              let (p2, kvs) ← recordLoop (step f) data keys p1 []
              mpure (p2, Value.map kvs) : M (Nat × Value))
            { s1 with records := some (dictSet recs1 id keys) })
        ∧ recLookup { s1 with records := some (dictSet recs1 id keys) } id = some keys) := by
  refine ⟨?_, ?_, ?_, ?_⟩
  · intro fuel data pos restrict s id ks h
    exact mono_step fuel data pos restrict s id ks h
  · intro fuel data multiple allow_remaining s id ks h
    exact mono_unpack fuel data multiple allow_remaining s id ks h
  · intro f data pos s id ks recs hrec hks
    unfold RecordExtension.post_unpack
    rw [bind_apply_ok (getState_apply s)]
    dsimp only
    rw [hrec]
    simp only []
    rw [hks]
  · intro f data pos s id s1 p1 keysV keys recs recs1 hrec hk0 hstep hkeys hrec1
    constructor
    · unfold RecordExtension.post_unpack
      rw [bind_apply_ok (getState_apply s)]
      dsimp only
      rw [hrec]
      simp only []
      rw [hk0]
      simp only []
      rw [bind_apply_ok hstep]
      simp only []
      rw [hkeys]
      simp only []
      rw [bind_apply_ok (getState_apply s1)]
      try dsimp only
      rw [hrec1]
      simp only []
      rw [bind_apply_ok (setRecords_apply (some (dictSet recs1 id keys)) s1)]
    · show (some (dictSet recs1 id keys)).bind (fun recs => dictGet recs id) = some keys
      rw [Option.some_bind]
      exact dictGet_dictSet_self recs1 id keys

/-- C8 witness: a cached id survives a step and an unpack; post_unpack on the
cached id 0 decodes only the value (buffer 07) against the cached key "k"; and
post_unpack on the uncached id 0 of a fresh decoder decodes the key list from
91 A1 6B, installs it, then decodes the value 07. -/
theorem c8_records_monotone_witness :
    recLookup ((step 1 [0x07] 0 none recState).1) 0 = some [[107]]
    ∧ recLookup ((Unpacker.unpack 2 [0x07] false false recState).1) 0 = some [[107]]
    ∧ RecordExtension.post_unpack (step 1) [0x07] 0 0 recState
      = (recState, .ok (1, .map [(.str [107], .int 7)]))
    ∧ RecordExtension.post_unpack (step 2) [0x91, 0xA1, 0x6B, 0x07] 0 0 (Unpacker.init true true)
      = ({ Unpacker.init true true with records := some [(0, [[107]])] },
         .ok (4, .map [(.str [107], .int 7)])) := by
  refine ⟨?_, ?_, ?_, ?_⟩
  · exact c8_records_monotone.1 1 [0x07] 0 none recState 0 [[107]] rfl
  · exact c8_records_monotone.2.1 2 [0x07] false false recState 0 [[107]] rfl
  · rw [c8_records_monotone.2.2.1 1 [0x07] 0 recState 0 [[107]] [(0, [[107]])] rfl rfl]
    rfl
  · rw [(c8_records_monotone.2.2.2 2 [0x91, 0xA1, 0x6B, 0x07] 0 (Unpacker.init true true) 0
      (Unpacker.init true true) 3 (.arr [.str [107]]) [[107]] [] [] rfl rfl rfl rfl rfl).1]
    rfl

/-- C9: unpack on an empty buffer returns the empty list for every combination
of multiple and allow_remaining, with the state untouched, because the decode
loop body never runs. -/
theorem c9_unpack_empty_buffer (fuel : Nat) (multiple allow_remaining : Bool) (s : UState) :
    Unpacker.unpack fuel [] multiple allow_remaining s = (s, .ok (.many [])) := by
  cases fuel with
  | zero => rfl
  | succ f => rfl

/-- C10: register_extensions with replace=false is not atomic: when the
extensions before e all register successfully and e's code is already taken,
the call raises the duplicate-extension error while every extension listed
before e has been added and stays registered. -/
theorem c10_register_extensions_not_atomic (s s1 : UState) (exts1 exts2 : List Ext)
    (e : Ext)
    (hreg : register_extensions exts1 false s = (s1, .ok ()))
    (hdup : (dictGet s1.extensions e.EXT_TYPE).isSome = true) :
    register_extensions (exts1 ++ e :: exts2) false s = (s1, .error .duplicateExt)
    ∧ ∀ x ∈ exts1, dictGet s1.extensions x.EXT_TYPE = some x := by
  constructor
  · rw [register_extensions_append, hreg]
    show register_extensions (e :: exts2) false s1 = _
    rw [register_extensions_cons, if_pos (by simp [hdup])]
  · exact register_extensions_success_lookup exts1 s s1 hreg

/-- C10 witness: registering bigint, then the already-present timestamp, then
error on a fresh decoder raises duplicate-extension with bigint left behind. -/
theorem c10_register_extensions_not_atomic_witness :
    register_extensions [Ext.bigint, Ext.timestamp, Ext.error] false (Unpacker.init true true)
      = ((register_extensions [Ext.bigint] false (Unpacker.init true true)).1,
         .error .duplicateExt)
    ∧ dictGet (register_extensions [Ext.bigint] false (Unpacker.init true true)).1.extensions 66
      = some Ext.bigint := by
  have h := c10_register_extensions_not_atomic (Unpacker.init true true)
    (register_extensions [Ext.bigint] false (Unpacker.init true true)).1
    [Ext.bigint] [Ext.error] Ext.timestamp rfl rfl
  exact ⟨h.1, h.2 Ext.bigint (by simp)⟩

end Msgpackr
